import Mathlib

/-!
# go-cosmosdb: the request-dispatch core of `pkg/gencosmosdb/cosmosdb`

A shallow embedding of `cosmosdb.go` and `collection.go`.

* Go's `error` interface is `Option GoError` (`none` is `nil`).
* Stateful code is written in state-passing style over a world `σ`; the
  transport `hc.Do`, the clock and `time.Sleep` act on that world.
* `http.Header` is a finite map with unique keys; its entry list fixes one
  iteration order of `range`, and every order is reached by some list.
* Functions of the Go standard library and of the codec library that the
  package calls are parameters (`Stdlib`, `JSONCodec`), except
  `textproto.CanonicalMIMEHeaderKey`, which header maps need and which is
  modelled. Models of the parameters (`stdBase64`, `queryEscape`, the sample
  codecs) serve to evaluate the code on concrete inputs.
-/

namespace Cosmosdb

/-! ## Errors (`cosmosdb.go`, lines 25-47) -/

/-- The Go struct `Error`: an HTTP status code plus the service's code and message. -/
structure Error where
  StatusCode : Int
  Code : String
  Message : String
deriving DecidableEq, Repr

/-- A non-nil value of Go's `error` interface: either one whose dynamic type is
`Error`, or one of any other dynamic type (a transport failure, a codec
failure, `ErrETagRequired`), identified by its message. -/
inductive GoError where
  | typed (e : Error)
  | other (msg : String)
deriving DecidableEq, Repr

/-- `IsErrorStatusCode`: true iff `err` has dynamic type `Error` and its
`StatusCode` equals `statusCode`. -/
def IsErrorStatusCode (err : Option GoError) (statusCode : Int) : Bool :=
  match err with
  | some (GoError.typed e) => e.StatusCode == statusCode
  | _ => false

/-- `ErrETagRequired = fmt.Errorf("ETag is required")`. -/
def ErrETagRequired : GoError := GoError.other "ETag is required"

/-- `http.StatusPreconditionFailed`. -/
def StatusPreconditionFailed : Int := 412

/-! ## Retry wrapper (`cosmosdb.go`, lines 49-60) -/

/-- The loop `for i := 0; i < 5; i++ { ... }` of `RetryOnPreconditionFailed`,
entered with `remaining = 5 - i` iterations left; `err` is the named result.
`sleep d` is `time.Sleep(d * time.Millisecond)`. -/
def retryLoop {σ : Type} (f : σ → Option GoError × σ) (sleep : Nat → σ → σ) :
    Nat → Nat → Option GoError → σ → Option GoError × σ
  | 0, _, err, w => (err, w)
  | remaining + 1, i, _, w =>
    let r := f w
    if !IsErrorStatusCode r.1 StatusPreconditionFailed then r
    else retryLoop f sleep remaining (i + 1) r.1 (sleep (100 * i) r.2)

/-- `RetryOnPreconditionFailed(f)`: the returned error and the world after the call. -/
def RetryOnPreconditionFailed {σ : Type} (f : σ → Option GoError × σ) (sleep : Nat → σ → σ)
    (w : σ) : Option GoError × σ :=
  retryLoop f sleep 5 0 none w

/-- The world seen by a retried operation: how many times the operation has
been invoked, and the durations (in milliseconds) slept so far, oldest first. -/
structure RetryWorld where
  calls : Nat
  slept : List Nat
deriving DecidableEq, Repr

/-- An operation closure whose `k`-th invocation (counted from 0) returns
`outcome k`; every invocation is counted in the world. -/
def scriptedOp (outcome : Nat → Option GoError) (w : RetryWorld) : Option GoError × RetryWorld :=
  (outcome w.calls, { w with calls := w.calls + 1 })

/-- Recording `time.Sleep`: appends the duration to the world. -/
def recordSleep (d : Nat) (w : RetryWorld) : RetryWorld :=
  { w with slept := w.slept ++ [d] }

/-! ## HTTP headers (`net/http.Header`, `net/textproto`) -/

/-- A Go `http.Header`: a map from header names to value lists. The entry list
has pairwise distinct keys; its order stands for one iteration order of `range`. -/
structure Header where
  entries : List (String × List String)
  nodup : (entries.map Prod.fst).Nodup

/-- The empty map `http.Header{}`. -/
def Header.empty : Header := ⟨[], List.nodup_nil⟩

/-- Map indexing `h[k]`, with `none` for an absent key. -/
def Header.lookup (h : Header) (k : String) : Option (List String) :=
  h.entries.lookup k

/-- Map assignment `h[k] = v`. -/
def Header.assign (h : Header) (k : String) (v : List String) : Header where
  entries := h.entries.filter (fun e => e.1 != k) ++ [(k, v)]
  nodup := by
    rw [List.map_append, List.nodup_append]
    refine ⟨(h.nodup.sublist (List.Sublist.map _ (List.filter_sublist _))), by simp, ?_⟩
    intro a ha hb
    simp only [List.map_cons, List.map_nil, List.mem_singleton] at hb
    simp only [List.mem_map, List.mem_filter] at ha
    obtain ⟨e, ⟨_, hne⟩, rfl⟩ := ha
    simp [hb] at hne

/-- The builtin `delete(h, k)`. -/
def Header.delete (h : Header) (k : String) : Header where
  entries := h.entries.filter (fun e => e.1 != k)
  nodup := h.nodup.sublist (List.Sublist.map _ (List.filter_sublist _))

/-- Whether a byte may occur in a header field name (an RFC 7230 token
character): `validHeaderFieldByte` of `net/textproto`. -/
def validHeaderFieldByte (c : Char) : Bool :=
  let n := c.toNat
  (48 ≤ n && n ≤ 57) || (65 ≤ n && n ≤ 90) || (97 ≤ n && n ≤ 122) ||
    [33, 35, 36, 37, 38, 39, 42, 43, 45, 46, 94, 95, 96, 124, 126].contains n

/-- The canonicalising pass of `net/textproto`: the first letter and every
letter after a dash in upper case, every other letter in lower case. -/
def canonicalLoop : Bool → List Char → List Char
  | _, [] => []
  | upper, c :: cs =>
    let n := c.toNat
    let c1 :=
      if upper && (97 ≤ n && n ≤ 122) then Char.ofNat (n - 32)
      else if !upper && (65 ≤ n && n ≤ 90) then Char.ofNat (n + 32)
      else c
    c1 :: canonicalLoop (c1 == '-') cs

/-- Model of `textproto.CanonicalMIMEHeaderKey`: a name holding a byte that is
not a token character is returned unchanged, any other name is canonicalised. -/
def CanonicalMIMEHeaderKey (s : String) : String :=
  if s.data.all validHeaderFieldByte then String.mk (canonicalLoop true s.data) else s

/-- The method `http.Header.Set(key, value)`. -/
def Header.Set (h : Header) (key value : String) : Header :=
  h.assign (CanonicalMIMEHeaderKey key) [value]

/-- The method `http.Header.Get(key)`: the first value stored under the
canonical form of `key`, or the empty string. -/
def Header.Get (h : Header) (key : String) : String :=
  match h.lookup (CanonicalMIMEHeaderKey key) with
  | some (v :: _) => v
  | _ => ""

/-! ## Requests, responses and the library functions the package calls -/

/-- The fields of `http.Request` the package reads or writes. -/
structure Request where
  Method : String
  URL : String
  Header : Header
  Body : Option String

/-- The fields of `http.Response` the package reads. -/
structure Response where
  StatusCode : Int
  Header : Header
  Body : String

/-- What `codec.NewEncoder(_, JSONHandle).Encode` and
`codec.NewDecoder(_, JSONHandle).Decode` do at one Go type `τ`. `Decode body t`
decodes into the target `t` and gives the target afterwards together with the
decoder's error. -/
structure JSONCodec (τ : Type) where
  Encode : τ → Except GoError String
  Decode : String → τ → τ × Option GoError

/-- The codec at the type of a `nil` argument: there is no value to encode or
to decode into. -/
def JSONCodec.absent : JSONCodec Empty where
  Encode := fun x => nomatch x
  Decode := fun _ x => nomatch x

/-- The library functions and the clock the dispatcher relies on, over a world
`σ`: `strings.ToLower`, HMAC-SHA256 (`hmac.New(sha256.New, key)` over the
written message), `base64.StdEncoding.EncodeToString`, `url.QueryEscape`, the
error `http.NewRequest` gives for a method and URL (if any), the formatted
`time.Now().UTC()`, and the codec at the type `Error`. Byte strings are lists
of numbers below 256. -/
structure Stdlib (σ : Type) where
  ToLower : String → String
  hmacSHA256 : List Nat → String → List Nat
  base64 : List Nat → String
  QueryEscape : String → String
  requestError : String → String → Option GoError
  now : σ → String
  errorCodec : JSONCodec Error

/-- `http.NewRequest(method, url, nil)`: an empty method means GET; the new
request has an empty header and no body. -/
def NewRequest {σ : Type} (sl : Stdlib σ) (method url : String) : Except GoError Request :=
  match sl.requestError method url with
  | some e => Except.error e
  | none =>
    Except.ok
      { Method := if method = "" then "GET" else method
        URL := url
        Header := Header.empty
        Body := none }

/-! ## The database client (`cosmosdb.go`, lines 72-137) -/

/-- Modelled from the spec: the struct `databaseClient`, whose declaration is not
among the source files. It holds the credentials (the account identifier and
the binary master key) and the transport `hc`, whose `Do` sends a request and
gives a response or a transport failure. -/
structure databaseClient (σ : Type) where
  hc : Request → σ → Except GoError Response × σ
  databaseAccount : String
  masterKey : List Nat

/-- The message written to the HMAC by `authorizeRequest`:
`fmt.Fprintf(h, "%s\n%s\n%s\n%s\n\n", ToLower(method), resourceType, resourceLink, ToLower(date))`. -/
def stringToSign {σ : Type} (sl : Stdlib σ) (method resourceType resourceLink date : String) :
    String :=
  sl.ToLower method ++ "\n" ++ resourceType ++ "\n" ++ resourceLink ++ "\n"
    ++ sl.ToLower date ++ "\n\n"

/-- The method `authorizeRequest`, given the formatted current time `date`. -/
def databaseClient.authorizeRequest {σ : Type} (c : databaseClient σ) (sl : Stdlib σ)
    (date : String) (req : Request) (resourceType resourceLink : String) : Request :=
  let sum := sl.hmacSHA256 c.masterKey (stringToSign sl req.Method resourceType resourceLink date)
  let h1 := req.Header.Set "Authorization"
    (sl.QueryEscape ("type=master&ver=1.0&sig=" ++ sl.base64 sum))
  { req with Header := h1.Set "x-ms-date" date }

/-- Lines 98-100 of `do`: `for k, v := range headers { req.Header[CanonicalMIMEHeaderKey(k)] = v }`;
a nil map has no entries. -/
def mergeHeaders (headers : Option Header) (reqHeader : Header) : Header :=
  match headers with
  | none => reqHeader
  | some h => h.entries.foldl (fun acc e => acc.assign (CanonicalMIMEHeaderKey e.1) e.2) reqHeader

/-- Lines 83-104 of `do`: everything up to the call of the transport. The
result is the request handed to `hc.Do`, or the error `do` returns early. -/
def databaseClient.prepare {σ ι : Type} (c : databaseClient σ) (sl : Stdlib σ) (cin : JSONCodec ι)
    (method path resourceType resourceLink : String) (input : Option ι)
    (headers : Option Header) (w : σ) : Except GoError Request :=
  match NewRequest sl method ("https://" ++ c.databaseAccount ++ ".documents.azure.com/" ++ path) with
  | Except.error e => Except.error e
  | Except.ok req0 =>
    let encoded : Except GoError Request :=
      match input with
      | none => Except.ok req0
      | some v =>
        match cin.Encode v with
        | Except.error e => Except.error e
        | Except.ok buf =>
          Except.ok { req0 with Body := some buf
                                Header := req0.Header.Set "Content-Type" "application/json" }
    match encoded with
    | Except.error e => Except.error e
    | Except.ok req1 =>
      let req2 := { req1 with Header := mergeHeaders headers req1.Header }
      let req3 := { req2 with Header := req2.Header.Set "x-ms-version" "2018-12-31" }
      Except.ok (c.authorizeRequest sl (sl.now w) req3 resourceType resourceLink)

/-- Lines 112-119 of `do`: a non-nil `headers` map is emptied key by key and
then filled with the entries of the response header. -/
def receiveHeaders (headers : Option Header) (respHeader : Header) : Option Header :=
  match headers with
  | none => none
  | some h =>
    let cleared := h.entries.foldl (fun acc e => acc.delete e.1) h
    some (respHeader.entries.foldl (fun acc e => acc.assign e.1 e.2) cleared)

/-- What `do` leaves behind: the returned error, the target `out` points to,
the caller's header map, and the world. -/
structure DoResult (ο σ : Type) where
  err : Option GoError
  out : Option ο
  headers : Option Header
  world : σ

/-- The method `databaseClient.do`. `input` and `out` are `none` for a nil
interface; `out = some t` is a pointer to a target currently holding `t`;
`headers` is `none` for a nil map. -/
def databaseClient.do_ {σ ι ο : Type} (c : databaseClient σ) (sl : Stdlib σ)
    (cin : JSONCodec ι) (cout : JSONCodec ο)
    (method path resourceType resourceLink : String) (expectedStatusCode : Int)
    (input : Option ι) (out : Option ο) (headers : Option Header) (w : σ) : DoResult ο σ :=
  match c.prepare sl cin method path resourceType resourceLink input headers w with
  | Except.error e => { err := some e, out := out, headers := headers, world := w }
  | Except.ok req =>
    match c.hc req w with
    | (Except.error e, w1) => { err := some e, out := out, headers := headers, world := w1 }
    | (Except.ok resp, w1) =>
      let headers1 := receiveHeaders headers resp.Header
      if resp.StatusCode ≠ expectedStatusCode then
        let err0 : Error := { StatusCode := 0, Code := "", Message := "" }
        let err1 : Error :=
          if resp.Header.Get "Content-Type" = "application/json" then
            (sl.errorCodec.Decode resp.Body err0).1
          else err0
        { err := some (GoError.typed { err1 with StatusCode := resp.StatusCode })
          out := out, headers := headers1, world := w1 }
      else
        match out with
        | some target =>
          if resp.Header.Get "Content-Type" = "application/json" then
            let d := cout.Decode resp.Body target
            { err := d.2, out := some d.1, headers := headers1, world := w1 }
          else { err := none, out := out, headers := headers1, world := w1 }
        | none => { err := none, out := out, headers := headers1, world := w1 }

/-! ## The collection client (`collection.go`) -/

set_option linter.dupNamespace false

/-- The struct `Index`. -/
structure Index where
  DataType : String
  Kind : String
  Precision : Int
deriving DecidableEq, Repr

/-- The struct `IncludedPath`. -/
structure IncludedPath where
  Path : String
  Indexes : List Index
deriving DecidableEq, Repr

/-- The struct `IndexingPolicy`. -/
structure IndexingPolicy where
  Automatic : Bool
  IndexingMode : String
  IncludedPaths : List IncludedPath
  ExcludedPaths : List IncludedPath
deriving DecidableEq, Repr

/-- The struct `PartitionKey`. -/
structure PartitionKey where
  Paths : List String
  Kind : String
  Version : Int
deriving DecidableEq, Repr

/-- The struct `ConflictResolutionPolicy`. -/
structure ConflictResolutionPolicy where
  Mode : String
  ConflictResolutionPath : String
  ConflictResolutionProcedure : String
deriving DecidableEq, Repr

/-- The struct `GeospatialConfig`. -/
structure GeospatialConfig where
  Type_ : String
deriving DecidableEq, Repr

/-- The struct `Collection`; a nil pointer field is `none`. -/
structure Collection where
  ID : String
  ResourceID : String
  Timestamp : Int
  Self : String
  ETag : String
  Documents : String
  StoredProcedures : String
  Triggers : String
  UserDefinedFunctions : String
  Conflicts : String
  IndexingPolicy : Option IndexingPolicy
  PartitionKey : Option PartitionKey
  ConflictResolutionPolicy : Option ConflictResolutionPolicy
  GeospatialConfig : Option GeospatialConfig
deriving DecidableEq, Repr

/-- The struct `Collections`, one page of a collection listing. -/
structure Collections where
  Count : Int
  ResourceID : String
  Collections : List Collection
deriving DecidableEq, Repr

/-- The struct `collectionClient`: the embedded database client and the path
`"dbs/" + dbid`. -/
structure collectionClient (σ : Type) where
  databaseClient : databaseClient σ
  path : String

/-- The struct `collectionListIterator`: the embedded collection client, the
held continuation token and the exhausted flag. -/
structure collectionListIterator (σ : Type) where
  collectionClient : collectionClient σ
  continuation : String
  done : Bool

/-- `NewCollectionClient(c, dbid)`. -/
def NewCollectionClient {σ : Type} (c : databaseClient σ) (dbid : String) : collectionClient σ :=
  { databaseClient := c, path := "dbs/" ++ dbid }

/-- What a client method leaves behind: its result value, its error, the world. -/
structure OpResult (τ σ : Type) where
  value : τ
  err : Option GoError
  world : σ

/-- The method `collectionClient.Create`; `cc` is the codec at `*Collection`. -/
def collectionClient.Create {σ : Type} (c : collectionClient σ) (sl : Stdlib σ)
    (cc : JSONCodec (Option Collection)) (newcoll : Option Collection) (w : σ) :
    OpResult (Option Collection) σ :=
  let r := c.databaseClient.do_ sl cc cc "POST" (c.path ++ "/colls") "colls" c.path 201
    (some newcoll) (some none) none w
  { value := (r.out.getD none), err := r.err, world := r.world }

/-- The method `collectionClient.List`: a fresh cursor. -/
def collectionClient.List {σ : Type} (c : collectionClient σ) : collectionListIterator σ :=
  { collectionClient := c, continuation := "", done := false }

/-- The method `collectionClient.Get`. -/
def collectionClient.Get {σ : Type} (c : collectionClient σ) (sl : Stdlib σ)
    (cc : JSONCodec (Option Collection)) (collid : String) (w : σ) :
    OpResult (Option Collection) σ :=
  let r := c.databaseClient.do_ sl JSONCodec.absent cc "GET" (c.path ++ "/colls/" ++ collid) "colls"
    (c.path ++ "/colls/" ++ collid) 200 none (some none) none w
  { value := (r.out.getD none), err := r.err, world := r.world }

/-- The method `collectionClient.Delete`, for a non-nil `coll`. -/
def collectionClient.Delete {σ : Type} (c : collectionClient σ) (sl : Stdlib σ)
    (coll : Collection) (w : σ) : OpResult Unit σ :=
  if coll.ETag = "" then { value := (), err := some ErrETagRequired, world := w }
  else
    let headers := Header.empty.Set "If-Match" coll.ETag
    let r := c.databaseClient.do_ sl JSONCodec.absent JSONCodec.absent "DELETE"
      (c.path ++ "/colls/" ++ coll.ID) "colls" (c.path ++ "/colls/" ++ coll.ID) 204
      none none (some headers) w
    { value := (), err := r.err, world := r.world }

/-- The method `collectionClient.Replace`, for a non-nil `newcoll`. -/
def collectionClient.Replace {σ : Type} (c : collectionClient σ) (sl : Stdlib σ)
    (cc : JSONCodec (Option Collection)) (newcoll : Collection) (w : σ) :
    OpResult (Option Collection) σ :=
  let r := c.databaseClient.do_ sl cc cc "POST" (c.path ++ "/colls/" ++ newcoll.ID) "colls"
    (c.path ++ "/colls/" ++ newcoll.ID) 201 (some (some newcoll)) (some none) none w
  { value := (r.out.getD none), err := r.err, world := r.world }

/-- What `Next` leaves behind: the page, the error, the cursor and the world. -/
structure NextResult (σ : Type) where
  colls : Option Collections
  err : Option GoError
  iter : collectionListIterator σ
  world : σ

/-- The header map `Next` builds for its request (lines 171-174). -/
def collectionListIterator.listHeaders {σ : Type} (i : collectionListIterator σ) : Header :=
  if i.continuation ≠ "" then Header.empty.Set "X-Ms-Continuation" i.continuation
  else Header.empty

/-- The method `collectionListIterator.Next`; `cd` is the codec at `*Collections`. -/
def collectionListIterator.Next {σ : Type} (i : collectionListIterator σ) (sl : Stdlib σ)
    (cd : JSONCodec (Option Collections)) (w : σ) : NextResult σ :=
  if i.done then { colls := none, err := none, iter := i, world := w }
  else
    let r := i.collectionClient.databaseClient.do_ sl JSONCodec.absent cd "GET"
      (i.collectionClient.path ++ "/colls") "colls" i.collectionClient.path 200
      none (some none) (some i.listHeaders) w
    match r.err with
    | some e => { colls := r.out.getD none, err := some e, iter := i, world := r.world }
    | none =>
      let continuation := (r.headers.getD Header.empty).Get "X-Ms-Continuation"
      { colls := r.out.getD none, err := none
        iter := { i with continuation := continuation, done := continuation == "" }
        world := r.world }

/-! ## A recording transport -/

/-- A world for a scripted transport: the requests handed to the transport so
far (oldest first) and the outcomes it has yet to produce. -/
structure Net where
  sent : List Request
  script : List (Except GoError Response)

/-- The scripted transport: records the request and produces the next
scripted outcome, or a transport failure once the script is used up. -/
def Net.Do (req : Request) (w : Net) : Except GoError Response × Net :=
  match w.script with
  | [] => (Except.error (GoError.other "transport: no response"),
           { sent := w.sent ++ [req], script := [] })
  | r :: rest => (r, { sent := w.sent ++ [req], script := rest })

/-- A database client over the scripted transport. -/
def netClient (account : String) (key : List Nat) : databaseClient Net :=
  { hc := Net.Do, databaseAccount := account, masterKey := key }

/-- The cursor and world after calling `Next` `n` times in a row. -/
def runNext (sl : Stdlib Net) (cd : JSONCodec (Option Collections)) :
    Nat → collectionListIterator Net × Net → collectionListIterator Net × Net
  | 0, s => s
  | n + 1, s => runNext sl cd n ((s.1.Next sl cd s.2).iter, (s.1.Next sl cd s.2).world)

/-- A list response that `Next` takes as a success under the codec `cd`: status
200, and a body the codec accepts if the response declares JSON. -/
def successfulPage (cd : JSONCodec (Option Collections)) (r : Response) : Prop :=
  r.StatusCode = 200 ∧
    (r.Header.Get "Content-Type" = "application/json" → (cd.Decode r.Body none).2 = none)

instance (cd : JSONCodec (Option Collections)) (r : Response) : Decidable (successfulPage cd r) :=
  inferInstanceAs (Decidable (r.StatusCode = 200 ∧
    (r.Header.Get "Content-Type" = "application/json" → (cd.Decode r.Body none).2 = none)))

/-! ## Models of the library functions, for evaluating the code on concrete inputs -/

/-- Model of `strings.ToLower` on ASCII text: the letters A-Z are lowered, every
other character is kept. (A method accepted by `http.NewRequest` and a
formatted date are ASCII.) -/
def asciiLower (s : String) : String :=
  String.mk (s.data.map (fun c => if 65 ≤ c.toNat ∧ c.toNat ≤ 90 then Char.ofNat (c.toNat + 32) else c))

/-- The 64 characters of the standard base64 alphabet. -/
def base64Alphabet : List Char :=
  "ABCDEFGHIJKLMNOPQRSTUVWXYZabcdefghijklmnopqrstuvwxyz0123456789+/".data

/-- The base64 character of a 6-bit value. -/
def base64Char (n : Nat) : Char := base64Alphabet.getD (n % 64) 'A'

/-- Standard base64 with padding, over a list of bytes. -/
def base64Chars : List Nat → List Char
  | [] => []
  | [a] =>
    let n := (a % 256) * 65536
    [base64Char (n / 262144), base64Char (n / 4096), '=', '=']
  | [a, b] =>
    let n := (a % 256) * 65536 + (b % 256) * 256
    [base64Char (n / 262144), base64Char (n / 4096), base64Char (n / 64), '=']
  | a :: b :: c :: rest =>
    let n := (a % 256) * 65536 + (b % 256) * 256 + c % 256
    base64Char (n / 262144) :: base64Char (n / 4096) :: base64Char (n / 64) :: base64Char n
      :: base64Chars rest

/-- Model of `base64.StdEncoding.EncodeToString`. -/
def stdBase64 (bytes : List Nat) : String := String.mk (base64Chars bytes)

/-- The UTF-8 bytes of a character. -/
def utf8Bytes (c : Char) : List Nat :=
  let n := c.toNat
  if n < 128 then [n]
  else if n < 2048 then [192 + n / 64, 128 + n % 64]
  else if n < 65536 then [224 + n / 4096, 128 + n / 64 % 64, 128 + n % 64]
  else [240 + n / 262144, 128 + n / 4096 % 64, 128 + n / 64 % 64, 128 + n % 64]

/-- An upper-case hexadecimal digit. -/
def hexDigit (n : Nat) : Char := "0123456789ABCDEF".data.getD (n % 16) '0'

/-- How `url.QueryEscape` writes one byte: letters, digits and `-_.~` as they
are, a space as `+`, every other byte as `%XX`. -/
def escapeByte (b : Nat) : List Char :=
  if (48 ≤ b && b ≤ 57) || (65 ≤ b && b ≤ 90) || (97 ≤ b && b ≤ 122) ||
      [45, 95, 46, 126].contains b then [Char.ofNat b]
  else if b = 32 then ['+']
  else ['%', hexDigit (b / 16), hexDigit b]

/-- Model of `url.QueryEscape`. -/
def queryEscape (s : String) : String :=
  String.mk ((s.data.flatMap utf8Bytes).flatMap escapeByte)

/-- HMAC-SHA256 for evaluations. Under the key `[1, 2, 3]` and on the message
signed for a GET of `colls` under `dbs/mydb` on 1 January 2018 it is the true
digest; on any other input it is a 32-byte stand-in computed from the key and
the message, with the digest length of SHA-256 and none of its cryptographic
properties. -/
def sampleHMAC (key : List Nat) (message : String) : List Nat :=
  if key = [1, 2, 3] ∧ message = "get\ncolls\ndbs/mydb\nmon, 01 jan 2018 00:00:00 gmt\n\n" then
    [41, 78, 59, 106, 191, 248, 0, 237, 248, 209, 65, 76, 247, 19, 127, 112,
     240, 99, 198, 10, 25, 96, 221, 28, 238, 95, 149, 143, 84, 76, 104, 55]
  else (List.range 32).map (fun i => (key.sum + 7 * message.length + 31 * i) % 256)

/-- The zero value of `Collections`. -/
def zeroCollections : Collections := { Count := 0, ResourceID := "", Collections := [] }

/-- A codec at `*Collections` fixed on the bodies the evaluations use: the empty
JSON object decodes to a pointer to the zero value, and every other body used
(`{` among them, which ends before the object is closed) is rejected, the
target staying as it was. Encoding is not used. -/
def sampleCollectionsCodec : JSONCodec (Option Collections) where
  Encode := fun _ => Except.ok "\x7b\x7d"
  Decode := fun body target =>
    if body = "\x7b\x7d" then (some zeroCollections, none)
    else (target, some (GoError.other "json decode error"))

/-- The zero value of `Collection` with the given id and entity tag. -/
def Collection.withID (id etag : String) : Collection :=
  { ID := id, ResourceID := "", Timestamp := 0, Self := "", ETag := etag, Documents := "",
    StoredProcedures := "", Triggers := "", UserDefinedFunctions := "", Conflicts := "",
    IndexingPolicy := none, PartitionKey := none, ConflictResolutionPolicy := none,
    GeospatialConfig := none }

/-- A codec at `*Collection` fixed on the values the evaluations use: a
collection with only an id (and possibly an entity tag, which is written too)
encodes to the object holding them, a nil pointer to `null`; the empty JSON
object decodes to a pointer to the zero value and every other body used is
rejected. -/
def sampleCollectionCodec : JSONCodec (Option Collection) where
  Encode := fun v =>
    match v with
    | none => Except.ok "null"
    | some c =>
      if c.ETag = "" then Except.ok ("\x7b\"id\":\"" ++ c.ID ++ "\"\x7d")
      else Except.ok ("\x7b\"id\":\"" ++ c.ID ++ "\",\"_etag\":\"" ++ c.ETag ++ "\"\x7d")
  Decode := fun body target =>
    if body = "\x7b\x7d" then (some (Collection.withID "" ""), none)
    else (target, some (GoError.other "json decode error"))

/-- A codec at `Error` fixed on the bodies the evaluations use: the empty JSON
object leaves the target as it is, one sample error body fills in its code and
message, every other body is rejected. -/
def sampleErrorCodec : JSONCodec Error where
  Encode := fun _ => Except.ok "\x7b\x7d"
  Decode := fun body target =>
    if body = "\x7b\x7d" then (target, none)
    else if body = "\x7b\"code\":\"NotFound\",\"message\":\"Resource Not Found\"\x7d" then
      ({ target with Code := "NotFound", Message := "Resource Not Found" }, none)
    else (target, some (GoError.other "json decode error"))

/-- The library functions used in evaluations: the models above, a request
builder that refuses exactly the methods holding a character that is not a
token character, and a clock fixed at the given date. -/
def sampleStdlib (date : String) : Stdlib Net where
  ToLower := asciiLower
  hmacSHA256 := sampleHMAC
  base64 := stdBase64
  QueryEscape := queryEscape
  requestError := fun method _ =>
    if method.data.all validHeaderFieldByte then none
    else some (GoError.other "net/http: invalid method")
  now := fun _ => date
  errorCodec := sampleErrorCodec

/-! ## Sample responses -/

/-- A 404 response without a `Content-Type` whose body is not JSON. -/
def notFoundPlain : Response := { StatusCode := 404, Header := Header.empty, Body := "not here" }

/-- A 200 response declaring JSON whose body is the empty JSON object. -/
def emptyObjectPage : Response :=
  { StatusCode := 200, Header := Header.empty.Set "Content-Type" "application/json", Body := "\x7b\x7d" }

/-- A 200 response declaring JSON whose body ends before the object is closed. -/
def truncatedPage : Response :=
  { StatusCode := 200, Header := Header.empty.Set "Content-Type" "application/json", Body := "\x7b" }

/-- A 201 response without a body. -/
def createdPage : Response := { StatusCode := 201, Header := Header.empty, Body := "" }

/-- A GET request as `http.NewRequest` returns it. -/
def sampleGet : Request :=
  { Method := "GET", URL := "https://acct.documents.azure.com/dbs/mydb/colls"
    Header := Header.empty, Body := none }

/-- A 200 response declaring JSON that carries the continuation token `tok1`. -/
def tokenPage : Response :=
  { StatusCode := 200
    Header := (Header.empty.Set "Content-Type" "application/json").Set "X-Ms-Continuation" "tok1"
    Body := "\x7b\x7d" }

/-- A 503 response without a body. -/
def unavailablePage : Response := { StatusCode := 503, Header := Header.empty, Body := "" }

/-- A fresh cursor over the collections of the database `mydb`, on the
recording transport. -/
def sampleCursor : collectionListIterator Net :=
  (NewCollectionClient (netClient "acct" [1, 2, 3]) "mydb").List

/-- A world in which the transport answers a page carrying `tok1`, then fails
once, then answers a last page. -/
def sampleNet : Net :=
  { sent := []
    script := [Except.ok tokenPage, Except.error (GoError.other "dial tcp: timeout"),
      Except.ok emptyObjectPage] }

/-! ## Notions used to state the cursor's properties -/

/-- The URL `Next` requests. -/
def collectionListIterator.listURL {σ : Type} (i : collectionListIterator σ) : String :=
  "https://" ++ i.collectionClient.databaseClient.databaseAccount ++ ".documents.azure.com/"
    ++ (i.collectionClient.path ++ "/colls")

/-- The request `Next` hands to the transport in world `w`, as `do` builds it
from the cursor's header map when `http.NewRequest` accepts the URL. -/
def collectionListIterator.listRequest {σ : Type} (i : collectionListIterator σ) (sl : Stdlib σ)
    (w : σ) : Request :=
  i.collectionClient.databaseClient.authorizeRequest sl (sl.now w)
    { Method := "GET", URL := i.listURL
      Header := (mergeHeaders (some i.listHeaders) Header.empty).Set "x-ms-version" "2018-12-31"
      Body := none }
    "colls" i.collectionClient.path

/-- An outcome of the transport on which the dispatch made by `Next` fails: a
transport failure, or a response that is not a successful page. -/
def failedOutcome (cd : JSONCodec (Option Collections)) (o : Except GoError Response) : Prop :=
  match o with
  | Except.error _ => True
  | Except.ok r => ¬ successfulPage cd r

instance (cd : JSONCodec (Option Collections)) (o : Except GoError Response) :
    Decidable (failedOutcome cd o) :=
  match o with
  | Except.error _ => inferInstanceAs (Decidable True)
  | Except.ok r => inferInstanceAs (Decidable (¬ successfulPage cd r))

/-! ## Retry wrapper: lemmas -/

theorem retryLoop_stop {σ : Type} (f : σ → Option GoError × σ) (sleep : Nat → σ → σ)
    (n i : Nat) (err : Option GoError) (w : σ)
    (h : IsErrorStatusCode (f w).1 StatusPreconditionFailed = false) :
    retryLoop f sleep (n + 1) i err w = f w := by
  simp [retryLoop, h]

theorem retryLoop_again {σ : Type} (f : σ → Option GoError × σ) (sleep : Nat → σ → σ)
    (n i : Nat) (err : Option GoError) (w : σ)
    (h : IsErrorStatusCode (f w).1 StatusPreconditionFailed = true) :
    retryLoop f sleep (n + 1) i err w
      = retryLoop f sleep n (i + 1) (f w).1 (sleep (100 * i) (f w).2) := by
  simp [retryLoop, h]

/-- Running the loop over a scripted operation whose next `m` invocations all
fail with status 412, with `m` iterations or more left: the loop reaches
iteration `i + m` having invoked the operation `m` more times. -/
theorem retryLoop_scripted_failures (outcome : Nat → Option GoError) :
    ∀ (m n i : Nat) (err : Option GoError) (w : RetryWorld),
      0 < m →
      (∀ k, k < m → IsErrorStatusCode (outcome (w.calls + k)) StatusPreconditionFailed = true) →
      retryLoop (scriptedOp outcome) recordSleep (n + m) i err w
        = retryLoop (scriptedOp outcome) recordSleep n (i + m) (outcome (w.calls + (m - 1)))
            { calls := w.calls + m,
              slept := w.slept ++ (List.range m).map (fun k => 100 * (i + k)) } := by
  intro m
  induction m with
  | zero => intro n i err w h; omega
  | succ m ih =>
    intro n i err w _ hall
    have h0 : IsErrorStatusCode (outcome w.calls) StatusPreconditionFailed = true := by
      simpa using hall 0 (by omega)
    have hstep : retryLoop (scriptedOp outcome) recordSleep (n + (m + 1)) i err w
        = retryLoop (scriptedOp outcome) recordSleep (n + m) (i + 1) (outcome w.calls)
            { calls := w.calls + 1, slept := w.slept ++ [100 * i] } := by
      have := retryLoop_again (scriptedOp outcome) recordSleep (n + m) i err w
        (by simpa [scriptedOp] using h0)
      simpa [scriptedOp, recordSleep, Nat.add_assoc] using this
    rw [hstep]
    rcases Nat.eq_zero_or_pos m with hm | hm
    · subst hm
      simp [List.range_succ]
    · rw [ih n (i + 1) (outcome w.calls) { calls := w.calls + 1, slept := w.slept ++ [100 * i] } hm
        (by
          intro k hk
          have := hall (k + 1) (by omega)
          simpa [Nat.add_assoc, Nat.add_comm 1 k] using this)]
      have e1 : w.calls + 1 + (m - 1) = w.calls + (m + 1 - 1) := by omega
      have e2 : w.calls + 1 + m = w.calls + (m + 1) := by omega
      have e3 : i + 1 + m = i + (m + 1) := by omega
      have e4 : (List.range (m + 1)).map (fun k => 100 * (i + k))
          = [100 * i] ++ (List.range m).map (fun k => 100 * (i + 1 + k)) := by
        rw [List.range_succ_eq_map]
        simp [List.map_map, Function.comp_def, Nat.add_assoc, Nat.add_comm 1]
      simp only [e1, e2, e3, e4, List.append_assoc]

/-! ## Retry wrapper: claims -/

/-- The classifier rejects every error whose dynamic type is not `Error`,
whatever the status code asked for. -/
theorem IsErrorStatusCode_other (msg : String) (statusCode : Int) :
    IsErrorStatusCode (some (GoError.other msg)) statusCode = false := rfl

/-- On an error of dynamic type `Error` the classifier compares status codes. -/
theorem IsErrorStatusCode_typed (e : Error) (statusCode : Int) :
    IsErrorStatusCode (some (GoError.typed e)) statusCode = true ↔ e.StatusCode = statusCode := by
  simp [IsErrorStatusCode]

/-- C1. For every scripted operation and every `N < 5`: if its first `N`
invocations fail with an `Error` of status 412 and invocation `N` succeeds, the
wrapper returns `nil` and the operation has been invoked exactly `N + 1` times
(having slept `0, 100, ..` milliseconds between attempts); and if its first
invocation fails with an error that is not an `Error` of status 412, be it an
error of another dynamic type (a transport failure) or an `Error` with another
status code, the wrapper invokes it exactly once, never sleeps, and returns
that error unchanged. -/
theorem RetryOnPreconditionFailed_contract (outcome : Nat → Option GoError) (N : Nat) :
    (N < 5 →
      (∀ k, k < N → ∃ e : Error, outcome k = some (GoError.typed e) ∧ e.StatusCode = 412) →
      outcome N = none →
      RetryOnPreconditionFailed (scriptedOp outcome) recordSleep { calls := 0, slept := [] }
        = (none, { calls := N + 1, slept := (List.range N).map (fun k => 100 * k) })) ∧
    (∀ msg : String, outcome 0 = some (GoError.other msg) →
      RetryOnPreconditionFailed (scriptedOp outcome) recordSleep { calls := 0, slept := [] }
        = (some (GoError.other msg), { calls := 1, slept := [] })) ∧
    (∀ e : Error, outcome 0 = some (GoError.typed e) → e.StatusCode ≠ 412 →
      RetryOnPreconditionFailed (scriptedOp outcome) recordSleep { calls := 0, slept := [] }
        = (some (GoError.typed e), { calls := 1, slept := [] })) := by
  refine ⟨?_, ?_, ?_⟩
  · intro hN hfail hok
    have hall : ∀ k, k < N →
        IsErrorStatusCode (outcome ((⟨0, []⟩ : RetryWorld).calls + k)) StatusPreconditionFailed
          = true := by
      intro k hk
      obtain ⟨e, he, hs⟩ := hfail k hk
      simp [he, IsErrorStatusCode, StatusPreconditionFailed, hs]
    unfold RetryOnPreconditionFailed
    rcases Nat.eq_zero_or_pos N with h0 | hpos
    · subst h0
      rw [retryLoop_stop _ _ 4 0 none _ (by simp [scriptedOp, hok, IsErrorStatusCode])]
      simp [scriptedOp, hok]
    · obtain ⟨n, hn⟩ : ∃ n, 5 = (n + 1) + N := ⟨4 - N, by omega⟩
      rw [hn, retryLoop_scripted_failures outcome N (n + 1) 0 none ⟨0, []⟩ hpos hall]
      rw [retryLoop_stop _ _ n _ _ _ (by simp [scriptedOp, hok, IsErrorStatusCode])]
      simp [scriptedOp, hok]
  · intro msg hother
    unfold RetryOnPreconditionFailed
    rw [retryLoop_stop _ _ 4 0 none _
      (by simp only [scriptedOp, hother]; exact IsErrorStatusCode_other msg _)]
    simp [scriptedOp, hother]
  · intro e htyped hstatus
    have hcls : IsErrorStatusCode (some (GoError.typed e)) StatusPreconditionFailed = false := by
      cases h : IsErrorStatusCode (some (GoError.typed e)) StatusPreconditionFailed with
      | false => rfl
      | true => exact absurd ((IsErrorStatusCode_typed e _).mp h) hstatus
    unfold RetryOnPreconditionFailed
    rw [retryLoop_stop _ _ 4 0 none _ (by simp only [scriptedOp, htyped]; exact hcls)]
    simp [scriptedOp, htyped]

/-- Witness for C1: two 412 failures then success gives `nil` after three
invocations; an operation failing with a transport failure is invoked once,
and so is one failing with an `Error` of status 404. -/
theorem RetryOnPreconditionFailed_contract_witness :
    RetryOnPreconditionFailed
        (scriptedOp (fun k => if k < 2 then some (GoError.typed ⟨412, "PreconditionFailed", ""⟩)
          else none))
        recordSleep { calls := 0, slept := [] }
      = (none, { calls := 3, slept := [0, 100] }) ∧
    RetryOnPreconditionFailed
        (scriptedOp (fun _ => some (GoError.other "dial tcp: timeout")))
        recordSleep { calls := 0, slept := [] }
      = (some (GoError.other "dial tcp: timeout"), { calls := 1, slept := [] }) ∧
    RetryOnPreconditionFailed
        (scriptedOp (fun _ => some (GoError.typed ⟨404, "NotFound", ""⟩)))
        recordSleep { calls := 0, slept := [] }
      = (some (GoError.typed ⟨404, "NotFound", ""⟩), { calls := 1, slept := [] }) :=
  ⟨(RetryOnPreconditionFailed_contract
      (fun k => if k < 2 then some (GoError.typed ⟨412, "PreconditionFailed", ""⟩) else none) 2).1
      (by decide)
      (fun k hk => ⟨⟨412, "PreconditionFailed", ""⟩, by simp [hk], rfl⟩)
      (by simp),
   (RetryOnPreconditionFailed_contract
      (fun _ => some (GoError.other "dial tcp: timeout")) 0).2.1 "dial tcp: timeout" rfl,
   (RetryOnPreconditionFailed_contract
      (fun _ => some (GoError.typed ⟨404, "NotFound", ""⟩)) 0).2.2
      ⟨404, "NotFound", ""⟩ rfl (by decide)⟩

/-- C8. For every scripted operation all of whose invocations fail with an
`Error` of status 412, the wrapper (a total function, so it terminates) invokes the
operation exactly 5 times, sleeping 0, 100, 200, 300 and 400 milliseconds after
the attempts, and returns the error of the fifth invocation. -/
theorem RetryOnPreconditionFailed_exhausts_budget (outcome : Nat → Option GoError)
    (hall : ∀ k, IsErrorStatusCode (outcome k) 412 = true) :
    RetryOnPreconditionFailed (scriptedOp outcome) recordSleep { calls := 0, slept := [] }
      = (outcome 4, { calls := 5, slept := [0, 100, 200, 300, 400] }) := by
  unfold RetryOnPreconditionFailed
  have := retryLoop_scripted_failures outcome 5 0 0 none ⟨0, []⟩ (by decide)
    (fun k _ => by simpa [StatusPreconditionFailed] using hall _)
  simp only [Nat.zero_add] at this
  rw [this]
  simp [retryLoop, List.range_succ]

/-- Witness for C8: an operation that always fails with status 412. -/
theorem RetryOnPreconditionFailed_exhausts_budget_witness :
    RetryOnPreconditionFailed
        (scriptedOp (fun k => some (GoError.typed ⟨412, "PreconditionFailed", toString k⟩)))
        recordSleep { calls := 0, slept := [] }
      = (some (GoError.typed ⟨412, "PreconditionFailed", toString 4⟩),
         { calls := 5, slept := [0, 100, 200, 300, 400] }) :=
  RetryOnPreconditionFailed_exhausts_budget
    (fun k => some (GoError.typed ⟨412, "PreconditionFailed", toString k⟩))
    (fun _ => by simp [IsErrorStatusCode])

/-! ## Header maps: lemmas -/

theorem Header.ext_entries {a b : Header} (h : a.entries = b.entries) : a = b := by
  cases a; cases b; simp_all

theorem lookup_filter_append_same (l : List (String × List String)) (k : String)
    (v : List String) :
    (l.filter (fun e => e.1 != k) ++ [(k, v)]).lookup k = some v := by
  induction l with
  | nil => simp [List.lookup]
  | cons a t ih =>
    obtain ⟨ak, av⟩ := a
    by_cases h : ak = k
    · rw [List.filter_cons]
      simpa [h] using ih
    · have h1 : (k == ak) = false := by simpa using fun hk => h hk.symm
      rw [List.filter_cons]
      simp only [bne_iff_ne, ne_eq, h, not_false_eq_true, ↓reduceIte, List.cons_append,
        List.lookup_cons, h1]
      exact ih

theorem lookup_filter_append_ne (l : List (String × List String)) (k k1 : String)
    (v : List String) (hne : k1 ≠ k) :
    (l.filter (fun e => e.1 != k) ++ [(k, v)]).lookup k1 = l.lookup k1 := by
  induction l with
  | nil =>
    have h1 : (k1 == k) = false := by simpa using hne
    simp [List.lookup, h1]
  | cons a t ih =>
    obtain ⟨ak, av⟩ := a
    by_cases h : ak = k
    · have h1 : (k1 == ak) = false := by simpa [h] using hne
      rw [List.filter_cons, List.lookup_cons, h1]
      simpa [h] using ih
    · rw [List.filter_cons]
      simp only [bne_iff_ne, ne_eq, h, not_false_eq_true, ↓reduceIte, List.cons_append,
        List.lookup_cons]
      rw [ih]

theorem Header.lookup_assign_same (h : Header) (k : String) (v : List String) :
    (h.assign k v).lookup k = some v :=
  lookup_filter_append_same h.entries k v

theorem Header.lookup_assign_ne (h : Header) (k k1 : String) (v : List String) (hne : k1 ≠ k) :
    (h.assign k v).lookup k1 = h.lookup k1 :=
  lookup_filter_append_ne h.entries k k1 v hne

theorem Header.lookup_empty (k : String) : Header.empty.lookup k = none := rfl

theorem foldl_assign_canonical_lookup_of_not_named (K : String)
    (l : List (String × List String)) :
    ∀ acc : Header, (∀ e ∈ l, CanonicalMIMEHeaderKey e.1 ≠ K) →
      (l.foldl (fun acc e => acc.assign (CanonicalMIMEHeaderKey e.1) e.2) acc).lookup K
        = acc.lookup K := by
  induction l with
  | nil => intro acc _; rfl
  | cons a t ih =>
    intro acc hl
    rw [List.foldl_cons, ih _ (fun e he => hl e (List.mem_cons_of_mem _ he))]
    exact Header.lookup_assign_ne acc _ K a.2 (fun hk => hl a (List.mem_cons_self _ _) hk.symm)

theorem foldl_assign_canonical_lookup_of_named (K : String)
    (l : List (String × List String)) :
    ∀ acc : Header, (∃ e ∈ l, CanonicalMIMEHeaderKey e.1 = K) →
      ∃ e ∈ l, CanonicalMIMEHeaderKey e.1 = K ∧
        (l.foldl (fun acc e => acc.assign (CanonicalMIMEHeaderKey e.1) e.2) acc).lookup K
          = some e.2 := by
  induction l with
  | nil => intro acc h; simp at h
  | cons a t ih =>
    intro acc _
    by_cases ht : ∃ e ∈ t, CanonicalMIMEHeaderKey e.1 = K
    · obtain ⟨e, he, hk, hl⟩ := ih (acc.assign (CanonicalMIMEHeaderKey a.1) a.2) ht
      exact ⟨e, List.mem_cons_of_mem _ he, hk, by rw [List.foldl_cons]; exact hl⟩
    · have ha : CanonicalMIMEHeaderKey a.1 = K := by
        rename_i h
        obtain ⟨e, he, hk⟩ := h
        rcases List.mem_cons.mp he with rfl | he
        · exact hk
        · exact absurd ⟨e, he, hk⟩ ht
      refine ⟨a, List.mem_cons_self _ _, ha, ?_⟩
      rw [List.foldl_cons, foldl_assign_canonical_lookup_of_not_named K t _
        (fun e he hk => ht ⟨e, he, hk⟩), ha]
      exact Header.lookup_assign_same _ _ _

/-- Merging caller headers none of whose names canonicalises to `K` leaves the
entry of `K` as it was. -/
theorem mergeHeaders_lookup_of_not_named (headers : Option Header) (rh : Header) (K : String)
    (hK : ∀ h, headers = some h → ∀ e ∈ h.entries, CanonicalMIMEHeaderKey e.1 ≠ K) :
    (mergeHeaders headers rh).lookup K = rh.lookup K := by
  cases headers with
  | none => rfl
  | some h => exact foldl_assign_canonical_lookup_of_not_named K h.entries rh (hK h rfl)

/-- Merging caller headers one of whose names canonicalises to `K` leaves under
`K` the values of such a caller header. -/
theorem mergeHeaders_lookup_of_named (h rh : Header) (K : String)
    (hK : ∃ e ∈ h.entries, CanonicalMIMEHeaderKey e.1 = K) :
    ∃ e ∈ h.entries, CanonicalMIMEHeaderKey e.1 = K ∧
      (mergeHeaders (some h) rh).lookup K = some e.2 :=
  foldl_assign_canonical_lookup_of_named K h.entries rh hK

theorem foldl_delete_entries (l : List (String × List String)) :
    ∀ acc : Header,
      (l.foldl (fun acc e => acc.delete e.1) acc).entries
        = acc.entries.filter (fun e => !(l.map Prod.fst).contains e.1) := by
  induction l with
  | nil => intro acc; simp
  | cons a t ih =>
    intro acc
    rw [List.foldl_cons, ih]
    simp only [Header.delete, List.filter_filter, List.map_cons]
    congr 1
    funext e
    by_cases h : e.1 = a.1
    · simp [h]
    · simp only [bne, List.contains_cons, Bool.not_or]
      exact Bool.and_comm _ _

theorem foldl_assign_entries (l : List (String × List String)) :
    ∀ acc : Header,
      (acc.entries.map Prod.fst ++ l.map Prod.fst).Nodup →
      (l.foldl (fun acc e => acc.assign e.1 e.2) acc).entries = acc.entries ++ l := by
  induction l with
  | nil => intro acc _; simp
  | cons a t ih =>
    intro acc hnd
    have hfresh : acc.entries.filter (fun e => e.1 != a.1) = acc.entries := by
      rw [List.filter_eq_self]
      intro e he
      have hd := (List.nodup_append.mp hnd).2.2
      have : e.1 ≠ a.1 := fun hh =>
        hd (List.mem_map_of_mem Prod.fst he) (by simp [hh])
      simpa using this
    have hent : (acc.assign a.1 a.2).entries = acc.entries ++ [a] := by
      simp [Header.assign, hfresh]
    rw [List.foldl_cons, ih, hent]
    · simp
    · rw [hent]
      simpa [List.map_append, List.append_assoc] using hnd

/-- Emptying the caller's map and copying the response header into it leaves
the caller holding exactly the response header. -/
theorem receiveHeaders_some (h rh : Header) : receiveHeaders (some h) rh = some rh := by
  have hc : (h.entries.foldl (fun acc e => acc.delete e.1) h).entries = [] := by
    rw [foldl_delete_entries, List.filter_eq_nil_iff]
    intro e he
    simpa using ⟨e.2, he⟩
  simp only [receiveHeaders]
  congr 1
  apply Header.ext_entries
  rw [foldl_assign_entries, hc, List.nil_append]
  rw [hc]
  simpa using rh.nodup

/-! ## The dispatcher: lemmas -/

theorem canonical_content_type : CanonicalMIMEHeaderKey "Content-Type" = "Content-Type" := by
  decide

theorem canonical_version : CanonicalMIMEHeaderKey "x-ms-version" = "X-Ms-Version" := by decide

theorem canonical_authorization : CanonicalMIMEHeaderKey "Authorization" = "Authorization" := by
  decide

theorem canonical_date : CanonicalMIMEHeaderKey "x-ms-date" = "X-Ms-Date" := by decide

theorem canonical_continuation :
    CanonicalMIMEHeaderKey "X-Ms-Continuation" = "X-Ms-Continuation" := by decide

/-- The headers written after the merge (`X-Ms-Version`, `Authorization`,
`X-Ms-Date`) leave every other entry as the merge left it. -/
theorem lookup_after_version_and_authorize {σ : Type} (c : databaseClient σ) (sl : Stdlib σ)
    (date method url : String) (h : Header) (body : Option String)
    (resourceType resourceLink K : String)
    (h1 : K ≠ "X-Ms-Version") (h2 : K ≠ "Authorization") (h3 : K ≠ "X-Ms-Date") :
    (c.authorizeRequest sl date
        { Method := method, URL := url, Header := h.Set "x-ms-version" "2018-12-31", Body := body }
        resourceType resourceLink).Header.lookup K = h.lookup K := by
  simp only [databaseClient.authorizeRequest, Header.Set, canonical_version,
    canonical_authorization, canonical_date]
  rw [Header.lookup_assign_ne _ _ _ _ h3, Header.lookup_assign_ne _ _ _ _ h2,
    Header.lookup_assign_ne _ _ _ _ h1]

/-- What `do` returns once the request is built and the transport has answered. -/
theorem do_of_response {σ ι ο : Type} (c : databaseClient σ) (sl : Stdlib σ)
    (cin : JSONCodec ι) (cout : JSONCodec ο)
    (method path resourceType resourceLink : String) (expectedStatusCode : Int)
    (input : Option ι) (out : Option ο) (headers : Option Header) (w w1 : σ)
    (req : Request) (resp : Response)
    (hreq : c.prepare sl cin method path resourceType resourceLink input headers w
      = Except.ok req)
    (hresp : c.hc req w = (Except.ok resp, w1)) :
    c.do_ sl cin cout method path resourceType resourceLink expectedStatusCode input out headers w
      = if resp.StatusCode ≠ expectedStatusCode then
          { err := some (GoError.typed
              { (if resp.Header.Get "Content-Type" = "application/json" then
                  (sl.errorCodec.Decode resp.Body { StatusCode := 0, Code := "", Message := "" }).1
                else { StatusCode := 0, Code := "", Message := "" })
                with StatusCode := resp.StatusCode })
            out := out, headers := receiveHeaders headers resp.Header, world := w1 }
        else
          match out with
          | some target =>
            if resp.Header.Get "Content-Type" = "application/json" then
              { err := (cout.Decode resp.Body target).2, out := some (cout.Decode resp.Body target).1
                headers := receiveHeaders headers resp.Header, world := w1 }
            else { err := none, out := out, headers := receiveHeaders headers resp.Header
                   world := w1 }
          | none => { err := none, out := out, headers := receiveHeaders headers resp.Header
                      world := w1 } := by
  simp only [databaseClient.do_, hreq, hresp]

/-- What `do` returns once the request is built and the transport has failed. -/
theorem do_of_transport_failure {σ ι ο : Type} (c : databaseClient σ) (sl : Stdlib σ)
    (cin : JSONCodec ι) (cout : JSONCodec ο)
    (method path resourceType resourceLink : String) (expectedStatusCode : Int)
    (input : Option ι) (out : Option ο) (headers : Option Header) (w w1 : σ)
    (req : Request) (e : GoError)
    (hreq : c.prepare sl cin method path resourceType resourceLink input headers w
      = Except.ok req)
    (hresp : c.hc req w = (Except.error e, w1)) :
    c.do_ sl cin cout method path resourceType resourceLink expectedStatusCode input out headers w
      = { err := some e, out := out, headers := headers, world := w1 } := by
  simp only [databaseClient.do_, hreq, hresp]

/-! ## The dispatcher: claims -/

/-- C2. Whenever `do` has built its request and the transport returns a
response whose status code differs from the expected one, `do` returns a value
of type `Error` whose `StatusCode` is the response's status code: its code and
message are those the decoder left in it when the response declares
`application/json` (whether or not the decoder reported a failure, which is
dropped), and empty otherwise; the caller's result target is not touched. -/
theorem do_status_mismatch_returns_typed_error {σ ι ο : Type} (c : databaseClient σ)
    (sl : Stdlib σ) (cin : JSONCodec ι) (cout : JSONCodec ο)
    (method path resourceType resourceLink : String) (expectedStatusCode : Int)
    (input : Option ι) (out : Option ο) (headers : Option Header) (w w1 : σ)
    (req : Request) (resp : Response)
    (hreq : c.prepare sl cin method path resourceType resourceLink input headers w
      = Except.ok req)
    (hresp : c.hc req w = (Except.ok resp, w1))
    (hne : resp.StatusCode ≠ expectedStatusCode) :
    ∃ e : Error,
      (c.do_ sl cin cout method path resourceType resourceLink expectedStatusCode
          input out headers w).err = some (GoError.typed e) ∧
      e.StatusCode = resp.StatusCode ∧
      (resp.Header.Get "Content-Type" = "application/json" →
        e.Code = (sl.errorCodec.Decode resp.Body ⟨0, "", ""⟩).1.Code ∧
        e.Message = (sl.errorCodec.Decode resp.Body ⟨0, "", ""⟩).1.Message) ∧
      (resp.Header.Get "Content-Type" ≠ "application/json" → e.Code = "" ∧ e.Message = "") ∧
      (c.do_ sl cin cout method path resourceType resourceLink expectedStatusCode
          input out headers w).out = out := by
  rw [do_of_response c sl cin cout method path resourceType resourceLink expectedStatusCode
    input out headers w w1 req resp hreq hresp, if_pos hne]
  refine ⟨_, rfl, rfl, ?_, ?_, rfl⟩
  · intro hct
    simp [hct]
  · intro hct
    simp [hct]

/-- Witness for C2: a GET expecting 200 that is answered 404 with a body that is
not JSON returns an `Error` with status 404. -/
theorem do_status_mismatch_returns_typed_error_witness :
    ∃ e : Error,
      ((netClient "acct" [1, 2, 3]).do_ (sampleStdlib "Mon, 01 Jan 2018 00:00:00 GMT")
          JSONCodec.absent sampleCollectionCodec "GET" "dbs/mydb/colls/c1" "colls"
          "dbs/mydb/colls/c1" 200 none (some none) none
          { sent := [], script := [Except.ok notFoundPlain] }).err = some (GoError.typed e) ∧
      e.StatusCode = 404 ∧
      (notFoundPlain.Header.Get "Content-Type" = "application/json" →
        e.Code = (sampleErrorCodec.Decode notFoundPlain.Body ⟨0, "", ""⟩).1.Code ∧
        e.Message = (sampleErrorCodec.Decode notFoundPlain.Body ⟨0, "", ""⟩).1.Message) ∧
      (notFoundPlain.Header.Get "Content-Type" ≠ "application/json" →
        e.Code = "" ∧ e.Message = "") ∧
      ((netClient "acct" [1, 2, 3]).do_ (sampleStdlib "Mon, 01 Jan 2018 00:00:00 GMT")
          JSONCodec.absent sampleCollectionCodec "GET" "dbs/mydb/colls/c1" "colls"
          "dbs/mydb/colls/c1" 200 none (some none) none
          { sent := [], script := [Except.ok notFoundPlain] }).out = some none :=
  do_status_mismatch_returns_typed_error (netClient "acct" [1, 2, 3])
    (sampleStdlib "Mon, 01 Jan 2018 00:00:00 GMT") JSONCodec.absent sampleCollectionCodec
    "GET" "dbs/mydb/colls/c1" "colls" "dbs/mydb/colls/c1" 200 none (some none) none
    { sent := [], script := [Except.ok notFoundPlain] } _ _ notFoundPlain rfl rfl (by decide)

/-- C3, amended. Whenever `do` has built its request and the transport returns
a response with the expected status code: if the response's `Content-Type` is
`application/json` and the caller asks for a result, `do` returns exactly what
the decoder reports for the response body, that is no error and the decoded
result when the decoder accepts the body, and the decoder's failure when it
does not; if the `Content-Type` is absent or different, `do` returns no error
and leaves the result untouched. -/
theorem do_status_match_returns_decoder_outcome {σ ι ο : Type} (c : databaseClient σ)
    (sl : Stdlib σ) (cin : JSONCodec ι) (cout : JSONCodec ο)
    (method path resourceType resourceLink : String) (expectedStatusCode : Int)
    (input : Option ι) (target : ο) (headers : Option Header) (w w1 : σ)
    (req : Request) (resp : Response)
    (hreq : c.prepare sl cin method path resourceType resourceLink input headers w
      = Except.ok req)
    (hresp : c.hc req w = (Except.ok resp, w1))
    (heq : resp.StatusCode = expectedStatusCode) :
    (resp.Header.Get "Content-Type" = "application/json" →
      (c.do_ sl cin cout method path resourceType resourceLink expectedStatusCode
          input (some target) headers w).err = (cout.Decode resp.Body target).2 ∧
      (c.do_ sl cin cout method path resourceType resourceLink expectedStatusCode
          input (some target) headers w).out = some (cout.Decode resp.Body target).1) ∧
    (resp.Header.Get "Content-Type" ≠ "application/json" →
      (c.do_ sl cin cout method path resourceType resourceLink expectedStatusCode
          input (some target) headers w).err = none ∧
      (c.do_ sl cin cout method path resourceType resourceLink expectedStatusCode
          input (some target) headers w).out = some target) := by
  rw [do_of_response c sl cin cout method path resourceType resourceLink expectedStatusCode
    input (some target) headers w w1 req resp hreq hresp]
  constructor
  · intro hct
    simp [heq, hct]
  · intro hct
    simp [heq, hct]

/-- Witness for C3, amended: a 200 response declaring JSON whose body is the
empty object gives no error and the decoded zero value; the same response
without the declaration leaves the result untouched. -/
theorem do_status_match_returns_decoder_outcome_witness :
    ((netClient "acct" [1, 2, 3]).do_ (sampleStdlib "Mon, 01 Jan 2018 00:00:00 GMT")
        JSONCodec.absent sampleCollectionsCodec "GET" "dbs/mydb/colls" "colls" "dbs/mydb" 200
        none (some none) none { sent := [], script := [Except.ok emptyObjectPage] }).err = none ∧
    ((netClient "acct" [1, 2, 3]).do_ (sampleStdlib "Mon, 01 Jan 2018 00:00:00 GMT")
        JSONCodec.absent sampleCollectionsCodec "GET" "dbs/mydb/colls" "colls" "dbs/mydb" 200
        none (some none) none { sent := [], script := [Except.ok emptyObjectPage] }).out
      = some (some zeroCollections) :=
  (do_status_match_returns_decoder_outcome (netClient "acct" [1, 2, 3])
    (sampleStdlib "Mon, 01 Jan 2018 00:00:00 GMT") JSONCodec.absent sampleCollectionsCodec
    "GET" "dbs/mydb/colls" "colls" "dbs/mydb" 200 none none none
    { sent := [], script := [Except.ok emptyObjectPage] } _ _ emptyObjectPage rfl rfl
    (by decide)).1 (by decide)

/-- Counterexample to C3 as stated: a response with the expected status 200
and `Content-Type: application/json` whose body `{` is cut short. The caller
asks for a result, and `do` returns the decoder's failure instead of no error. -/
theorem do_status_match_truncated_body_fails :
    truncatedPage.StatusCode = 200 ∧
    truncatedPage.Header.Get "Content-Type" = "application/json" ∧
    ((netClient "acct" [1, 2, 3]).do_ (sampleStdlib "Mon, 01 Jan 2018 00:00:00 GMT")
        JSONCodec.absent sampleCollectionsCodec "GET" "dbs/mydb/colls" "colls" "dbs/mydb" 200
        none (some none) none { sent := [], script := [Except.ok truncatedPage] }).err
      = some (GoError.other "json decode error") := by
  decide

/-- Over the recording transport, a call of `do` whose request could be built
hands exactly that request to the transport, once. -/
theorem do_net_sent {ι ο : Type} (c : databaseClient Net) (hhc : c.hc = Net.Do)
    (sl : Stdlib Net) (cin : JSONCodec ι) (cout : JSONCodec ο)
    (method path resourceType resourceLink : String) (expectedStatusCode : Int)
    (input : Option ι) (out : Option ο) (headers : Option Header) (w : Net) (req : Request)
    (hreq : c.prepare sl cin method path resourceType resourceLink input headers w
      = Except.ok req) :
    (c.do_ sl cin cout method path resourceType resourceLink expectedStatusCode
        input out headers w).world
      = { sent := w.sent ++ [req], script := w.script.tail } := by
  obtain ⟨sent, script⟩ := w
  cases script with
  | nil =>
    rw [do_of_transport_failure c sl cin cout method path resourceType resourceLink
      expectedStatusCode input out headers _ _ req _ hreq (by rw [hhc]; rfl)]
    rfl
  | cons o rest =>
    cases o with
    | error e =>
      rw [do_of_transport_failure c sl cin cout method path resourceType resourceLink
        expectedStatusCode input out headers _ _ req _ hreq (by rw [hhc]; rfl)]
      rfl
    | ok resp =>
      rw [do_of_response c sl cin cout method path resourceType resourceLink
        expectedStatusCode input out headers _ _ req resp hreq (by rw [hhc]; rfl)]
      split
      · rfl
      · split
        · split <;> rfl
        · rfl

/-- The request `do` builds when a body is present, the body encodes and
`http.NewRequest` accepts the method and URL. -/
theorem prepare_with_body {σ ι : Type} (c : databaseClient σ) (sl : Stdlib σ) (cin : JSONCodec ι)
    (method path resourceType resourceLink : String) (v : ι) (buf : String)
    (headers : Option Header) (w : σ)
    (hbuild : sl.requestError method
      ("https://" ++ c.databaseAccount ++ ".documents.azure.com/" ++ path) = none)
    (henc : cin.Encode v = Except.ok buf) :
    c.prepare sl cin method path resourceType resourceLink (some v) headers w
      = Except.ok (c.authorizeRequest sl (sl.now w)
          { Method := if method = "" then "GET" else method
            URL := "https://" ++ c.databaseAccount ++ ".documents.azure.com/" ++ path
            Header := (mergeHeaders headers
              (Header.empty.Set "Content-Type" "application/json")).Set
                "x-ms-version" "2018-12-31"
            Body := some buf }
          resourceType resourceLink) := by
  simp only [databaseClient.prepare, NewRequest, hbuild, henc]

/-- C9, amended. For every call of `do` with a request body that encodes and a
method and URL that `http.NewRequest` accepts, one request is handed to the
transport, with the encoded body. If none of the names in the caller-supplied
header set canonicalises to `Content-Type` (a nil header set included), that
request carries `Content-Type` with the single value `application/json`; if one
does, the request carries under `Content-Type` the values the caller gave for
such a name. -/
theorem do_sends_json_content_type {ι ο : Type} (account : String) (key : List Nat)
    (sl : Stdlib Net) (cin : JSONCodec ι) (cout : JSONCodec ο)
    (method path resourceType resourceLink : String) (expectedStatusCode : Int)
    (v : ι) (buf : String) (out : Option ο) (headers : Option Header) (w : Net)
    (hbuild : sl.requestError method
      ("https://" ++ account ++ ".documents.azure.com/" ++ path) = none)
    (henc : cin.Encode v = Except.ok buf) :
    ∃ req : Request,
      ((netClient account key).do_ sl cin cout method path resourceType resourceLink
          expectedStatusCode (some v) out headers w).world.sent = w.sent ++ [req] ∧
      req.Body = some buf ∧
      ((∀ h, headers = some h → ∀ e ∈ h.entries, CanonicalMIMEHeaderKey e.1 ≠ "Content-Type") →
        req.Header.lookup "Content-Type" = some ["application/json"]) ∧
      (∀ h, headers = some h →
        (∃ e ∈ h.entries, CanonicalMIMEHeaderKey e.1 = "Content-Type") →
        ∃ e ∈ h.entries, CanonicalMIMEHeaderKey e.1 = "Content-Type" ∧
          req.Header.lookup "Content-Type" = some e.2) := by
  have hprep := prepare_with_body (netClient account key) sl cin method path resourceType
    resourceLink v buf headers w hbuild henc
  refine ⟨(netClient account key).authorizeRequest sl (sl.now w)
      { Method := if method = "" then "GET" else method
        URL := "https://" ++ account ++ ".documents.azure.com/" ++ path
        Header := (mergeHeaders headers
          (Header.empty.Set "Content-Type" "application/json")).Set "x-ms-version" "2018-12-31"
        Body := some buf }
      resourceType resourceLink, ?_, rfl, ?_, ?_⟩
  · rw [do_net_sent (netClient account key) rfl sl cin cout method path resourceType resourceLink
      expectedStatusCode (some v) out headers w _ hprep]
    rfl
  · intro hnames
    rw [lookup_after_version_and_authorize _ _ _ _ _ _ _ _ _ "Content-Type"
      (by decide) (by decide) (by decide),
      mergeHeaders_lookup_of_not_named headers _ "Content-Type" hnames, Header.Set,
      canonical_content_type]
    exact Header.lookup_assign_same _ _ _
  · intro h hh hnamed
    subst hh
    obtain ⟨e, he, hk, hl⟩ := mergeHeaders_lookup_of_named h
      (Header.empty.Set "Content-Type" "application/json") "Content-Type" hnamed
    refine ⟨e, he, hk, ?_⟩
    rw [lookup_after_version_and_authorize _ _ _ _ _ _ _ _ _ "Content-Type"
      (by decide) (by decide) (by decide)]
    exact hl

/-- Witness for C9, amended: creating a collection while passing an `If-Match`
header sends one request with `Content-Type: application/json`. -/
theorem do_sends_json_content_type_witness :
    ∃ req : Request,
      ((netClient "acct" [1, 2, 3]).do_ (sampleStdlib "Mon, 01 Jan 2018 00:00:00 GMT")
          sampleCollectionCodec sampleCollectionCodec "POST" "dbs/mydb/colls" "colls" "dbs/mydb"
          201 (some (some (Collection.withID "c1" ""))) (some none)
          (some (Header.empty.Set "if-match" "tag1"))
          { sent := [], script := [] }).world.sent = [] ++ [req] ∧
      req.Body = some "\x7b\"id\":\"c1\"\x7d" ∧
      req.Header.lookup "Content-Type" = some ["application/json"] :=
  (do_sends_json_content_type "acct" [1, 2, 3] (sampleStdlib "Mon, 01 Jan 2018 00:00:00 GMT")
    sampleCollectionCodec sampleCollectionCodec "POST" "dbs/mydb/colls" "colls" "dbs/mydb" 201
    (some (Collection.withID "c1" "")) "\x7b\"id\":\"c1\"\x7d" (some none)
    (some (Header.empty.Set "if-match" "tag1")) { sent := [], script := [] }
    (by decide) rfl).imp
    (fun _ h => ⟨h.1, h.2.1, h.2.2.1 (by
      intro hd hh e he
      cases hh
      simp only [Header.Set, Header.assign, Header.empty, List.filter_nil, List.nil_append,
        List.mem_singleton] at he
      subst he
      decide)⟩)

/-- Counterexample to C9 as stated: a call with a request body present whose
caller-supplied header set names `content-type` (in lower case) with the value
`text/plain`. The one request handed to the transport carries `Content-Type`
with the value `text/plain`, not `application/json`. -/
theorem do_caller_content_type_overrides :
    (((netClient "acct" [1, 2, 3]).do_ (sampleStdlib "Mon, 01 Jan 2018 00:00:00 GMT")
        sampleCollectionCodec sampleCollectionCodec "POST" "dbs/mydb/colls" "colls" "dbs/mydb"
        201 (some (some (Collection.withID "c1" ""))) (some none)
        (some (Header.empty.assign "content-type" ["text/plain"]))
        { sent := [], script := [] }).world.sent.map
      (fun req => (req.Body, req.Header.lookup "Content-Type")))
      = [(some "\x7b\"id\":\"c1\"\x7d", some ["text/plain"])] := by
  decide

/-! ## The signer and the entity-tag guard: claims -/

/-- C6, amended. For every method, resource type, resource link, timestamp and
master key, with lower-casing, HMAC-SHA256, base64 and URL-encoding taken as
given functions: the signed string is the five fields lowercased method,
resource type, resource link, lowercased timestamp and an empty field, each
followed by a newline; the `Authorization` header holds the single value
obtained by URL-encoding, once and as a whole, the token
`type=master&ver=1.0&sig=` followed by the base64 of the HMAC of that string
under the master key; and the `X-Ms-Date` header holds the timestamp as it was
before lower-casing. -/
theorem authorizeRequest_signs_and_sets_headers {σ : Type} (c : databaseClient σ)
    (sl : Stdlib σ) (date : String) (req : Request) (resourceType resourceLink : String) :
    stringToSign sl req.Method resourceType resourceLink date
      = String.join (List.map (fun field => field ++ "\n")
          [sl.ToLower req.Method, resourceType, resourceLink, sl.ToLower date, ""]) ∧
    (c.authorizeRequest sl date req resourceType resourceLink).Header.lookup "Authorization"
      = some [sl.QueryEscape ("type=master&ver=1.0&sig=" ++
          sl.base64 (sl.hmacSHA256 c.masterKey
            (stringToSign sl req.Method resourceType resourceLink date)))] ∧
    (c.authorizeRequest sl date req resourceType resourceLink).Header.lookup "X-Ms-Date"
      = some [date] := by
  refine ⟨?_, ?_, ?_⟩
  · simp [stringToSign, String.join, String.append_assoc]
  · simp only [databaseClient.authorizeRequest, Header.Set, canonical_authorization,
      canonical_date]
    rw [Header.lookup_assign_ne _ _ _ _ (by decide)]
    exact Header.lookup_assign_same _ _ _
  · simp only [databaseClient.authorizeRequest, Header.Set, canonical_date]
    exact Header.lookup_assign_same _ _ _

/-- Counterexample to C6 as stated, at method `GET`, resource type `colls`,
resource link `dbs/mydb`, the timestamp of 1 January 2018 and the key
`[1, 2, 3]`: the signed string is not the five fields joined by newlines (it
ends in one more newline), and the `Authorization` value, in which the
signature is URL-encoded once, is not the percent-encoding of a token whose
signature part was already URL-encoded. -/
theorem authorizeRequest_not_joined_nor_twice_encoded :
    stringToSign (sampleStdlib "Mon, 01 Jan 2018 00:00:00 GMT") "GET" "colls" "dbs/mydb"
        "Mon, 01 Jan 2018 00:00:00 GMT"
      = "get\ncolls\ndbs/mydb\nmon, 01 jan 2018 00:00:00 gmt\n\n" ∧
    stringToSign (sampleStdlib "Mon, 01 Jan 2018 00:00:00 GMT") "GET" "colls" "dbs/mydb"
        "Mon, 01 Jan 2018 00:00:00 GMT"
      ≠ String.intercalate "\n"
          [asciiLower "GET", "colls", "dbs/mydb", asciiLower "Mon, 01 Jan 2018 00:00:00 GMT", ""] ∧
    ((netClient "acct" [1, 2, 3]).authorizeRequest (sampleStdlib "Mon, 01 Jan 2018 00:00:00 GMT")
        "Mon, 01 Jan 2018 00:00:00 GMT" sampleGet "colls" "dbs/mydb").Header.Get "Authorization"
      = "type%3Dmaster%26ver%3D1.0%26sig%3DKU47ar%2F4AO340UFM9xN%2FcPBjxgoZYN0c7l%2BVj1RMaDc%3D" ∧
    ((netClient "acct" [1, 2, 3]).authorizeRequest (sampleStdlib "Mon, 01 Jan 2018 00:00:00 GMT")
        "Mon, 01 Jan 2018 00:00:00 GMT" sampleGet "colls" "dbs/mydb").Header.Get "Authorization"
      ≠ queryEscape ("type=master&ver=1.0&sig=" ++
          queryEscape (stdBase64 (sampleHMAC [1, 2, 3]
            (stringToSign (sampleStdlib "Mon, 01 Jan 2018 00:00:00 GMT") "GET" "colls" "dbs/mydb"
              "Mon, 01 Jan 2018 00:00:00 GMT")))) := by
  decide

/-- C5, evaluated at a collection with an empty entity tag: `Delete` returns
`ErrETagRequired` and hands nothing to the transport, while `Replace` hands one
POST request to the transport and returns what the dispatcher returns (here no
error), not `ErrETagRequired`. -/
theorem Replace_without_etag_reaches_transport :
    (Collection.withID "c1" "").ETag = "" ∧
    ((NewCollectionClient (netClient "acct" [1, 2, 3]) "mydb").Delete
        (sampleStdlib "Mon, 01 Jan 2018 00:00:00 GMT") (Collection.withID "c1" "")
        { sent := [], script := [Except.ok createdPage] }).err = some ErrETagRequired ∧
    ((NewCollectionClient (netClient "acct" [1, 2, 3]) "mydb").Delete
        (sampleStdlib "Mon, 01 Jan 2018 00:00:00 GMT") (Collection.withID "c1" "")
        { sent := [], script := [Except.ok createdPage] }).world.sent.length = 0 ∧
    ((NewCollectionClient (netClient "acct" [1, 2, 3]) "mydb").Replace
        (sampleStdlib "Mon, 01 Jan 2018 00:00:00 GMT") sampleCollectionCodec
        (Collection.withID "c1" "")
        { sent := [], script := [Except.ok createdPage] }).err = none ∧
    ((NewCollectionClient (netClient "acct" [1, 2, 3]) "mydb").Replace
        (sampleStdlib "Mon, 01 Jan 2018 00:00:00 GMT") sampleCollectionCodec
        (Collection.withID "c1" "")
        { sent := [], script := [Except.ok createdPage] }).world.sent.map
          (fun req => (req.Method, req.URL, req.Header.lookup "If-Match"))
      = [("POST", "https://acct.documents.azure.com/dbs/mydb/colls/c1", none)] := by
  decide

/-! ## The pagination cursor: lemmas -/

theorem prepare_list {σ : Type} (i : collectionListIterator σ) (sl : Stdlib σ) (w : σ)
    (hbuild : sl.requestError "GET" i.listURL = none) :
    i.collectionClient.databaseClient.prepare sl JSONCodec.absent "GET"
        (i.collectionClient.path ++ "/colls") "colls" i.collectionClient.path none
        (some i.listHeaders) w
      = Except.ok (i.listRequest sl w) := by
  simp only [collectionListIterator.listURL] at hbuild
  simp [databaseClient.prepare, NewRequest, hbuild, collectionListIterator.listRequest,
    collectionListIterator.listURL]

/-- The request of `Next` carries the held continuation token as the single
value of `X-Ms-Continuation`, and no such header when the token is empty. -/
theorem listRequest_continuation {σ : Type} (i : collectionListIterator σ) (sl : Stdlib σ)
    (w : σ) :
    (i.listRequest sl w).Header.lookup "X-Ms-Continuation"
      = if i.continuation = "" then none else some [i.continuation] := by
  unfold collectionListIterator.listRequest
  rw [lookup_after_version_and_authorize _ _ _ _ _ _ _ _ _ "X-Ms-Continuation"
    (by decide) (by decide) (by decide)]
  by_cases h : i.continuation = ""
  · simp [collectionListIterator.listHeaders, h, mergeHeaders, Header.empty, Header.lookup]
  · simp only [collectionListIterator.listHeaders, h, mergeHeaders, ne_eq, not_false_eq_true,
      ↓reduceIte, Header.Set, canonical_continuation, Header.assign, Header.empty,
      List.filter_nil, List.nil_append, List.foldl_cons, List.foldl_nil]
    simp [Header.lookup, List.lookup]

theorem Next_done {σ : Type} (i : collectionListIterator σ) (sl : Stdlib σ)
    (cd : JSONCodec (Option Collections)) (w : σ) (hdone : i.done = true) :
    i.Next sl cd w = { colls := none, err := none, iter := i, world := w } := by
  simp [collectionListIterator.Next, hdone]

/-- Over the recording transport an active cursor hands exactly one request to
the transport, whatever the outcome. -/
theorem Next_world {i : collectionListIterator Net} (sl : Stdlib Net)
    (cd : JSONCodec (Option Collections)) (w : Net)
    (hhc : i.collectionClient.databaseClient.hc = Net.Do)
    (hbuild : sl.requestError "GET" i.listURL = none) (hactive : i.done = false) :
    (i.Next sl cd w).world = { sent := w.sent ++ [i.listRequest sl w], script := w.script.tail } := by
  have hw := do_net_sent i.collectionClient.databaseClient hhc sl JSONCodec.absent cd "GET"
    (i.collectionClient.path ++ "/colls") "colls" i.collectionClient.path 200 none (some none)
    (some i.listHeaders) w _ (prepare_list i sl w hbuild)
  simp only [collectionListIterator.Next, hactive, Bool.false_eq_true, ↓reduceIte]
  split <;> exact hw

/-- A successful page moves an active cursor to the token of that page, and
exhausts it exactly when that token is empty. -/
theorem Next_ok {i : collectionListIterator Net} (sl : Stdlib Net)
    (cd : JSONCodec (Option Collections)) (w : Net) (resp : Response)
    (rest : List (Except GoError Response))
    (hhc : i.collectionClient.databaseClient.hc = Net.Do)
    (hbuild : sl.requestError "GET" i.listURL = none) (hactive : i.done = false)
    (hscript : w.script = Except.ok resp :: rest) (hpage : successfulPage cd resp) :
    (i.Next sl cd w).err = none ∧
    (i.Next sl cd w).iter
      = { i with continuation := resp.Header.Get "X-Ms-Continuation"
                 done := resp.Header.Get "X-Ms-Continuation" == "" } := by
  have hresp : i.collectionClient.databaseClient.hc (i.listRequest sl w) w
      = (Except.ok resp, { sent := w.sent ++ [i.listRequest sl w], script := rest }) := by
    rw [hhc]
    simp [Net.Do, hscript]
  have hdo := do_of_response i.collectionClient.databaseClient sl JSONCodec.absent cd "GET"
    (i.collectionClient.path ++ "/colls") "colls" i.collectionClient.path 200 none (some none)
    (some i.listHeaders) w _ _ resp (prepare_list i sl w hbuild) hresp
  simp only [hpage.1, ne_eq, not_true_eq_false, ↓reduceIte, receiveHeaders_some] at hdo
  simp only [collectionListIterator.Next, hactive, Bool.false_eq_true, ↓reduceIte, hdo]
  by_cases hct : resp.Header.Get "Content-Type" = "application/json"
  · simp [hct, hpage.2 hct]
  · simp [hct]

/-- A failed dispatch leaves an active cursor as it was. -/
theorem Next_failed {i : collectionListIterator Net} (sl : Stdlib Net)
    (cd : JSONCodec (Option Collections)) (w : Net) (o : Except GoError Response)
    (rest : List (Except GoError Response))
    (hhc : i.collectionClient.databaseClient.hc = Net.Do)
    (hbuild : sl.requestError "GET" i.listURL = none) (hactive : i.done = false)
    (hscript : w.script = o :: rest) (hfail : failedOutcome cd o) :
    (i.Next sl cd w).iter = i := by
  cases o with
  | error e =>
    have hresp : i.collectionClient.databaseClient.hc (i.listRequest sl w) w
        = (Except.error e, { sent := w.sent ++ [i.listRequest sl w], script := rest }) := by
      rw [hhc]
      simp [Net.Do, hscript]
    have hdo := do_of_transport_failure i.collectionClient.databaseClient sl JSONCodec.absent cd
      "GET" (i.collectionClient.path ++ "/colls") "colls" i.collectionClient.path 200 none
      (some none) (some i.listHeaders) w _ _ e (prepare_list i sl w hbuild) hresp
    simp [collectionListIterator.Next, hactive, hdo]
  | ok resp =>
    have hresp : i.collectionClient.databaseClient.hc (i.listRequest sl w) w
        = (Except.ok resp, { sent := w.sent ++ [i.listRequest sl w], script := rest }) := by
      rw [hhc]
      simp [Net.Do, hscript]
    have hdo := do_of_response i.collectionClient.databaseClient sl JSONCodec.absent cd "GET"
      (i.collectionClient.path ++ "/colls") "colls" i.collectionClient.path 200 none (some none)
      (some i.listHeaders) w _ _ resp (prepare_list i sl w hbuild) hresp
    simp only [failedOutcome, successfulPage, not_and, Classical.not_imp] at hfail
    by_cases hst : resp.StatusCode = 200
    · obtain ⟨hct, hdec⟩ := hfail hst
      simp only [hst, ne_eq, not_true_eq_false, ↓reduceIte, hct] at hdo
      simp only [collectionListIterator.Next, hactive, Bool.false_eq_true, ↓reduceIte, hdo]
      cases hd : (cd.Decode resp.Body none).2 with
      | none => exact absurd hd hdec
      | some e => rfl
    · simp only [ne_eq, hst, not_false_eq_true, ↓reduceIte] at hdo
      simp [collectionListIterator.Next, hactive, hdo]

theorem runNext_add (sl : Stdlib Net) (cd : JSONCodec (Option Collections)) (a b : Nat) :
    ∀ s : collectionListIterator Net × Net,
      runNext sl cd (a + b) s = runNext sl cd b (runNext sl cd a s) := by
  induction a with
  | zero => intro s; simp [runNext]
  | succ a ih =>
    intro s
    rw [Nat.add_right_comm]
    simp only [runNext]
    exact ih _

theorem runNext_done (sl : Stdlib Net) (cd : JSONCodec (Option Collections)) (n : Nat) :
    ∀ s : collectionListIterator Net × Net, s.1.done = true → runNext sl cd n s = s := by
  induction n with
  | zero => intro s _; rfl
  | succ n ih =>
    intro s hs
    simp only [runNext, Next_done s.1 sl cd s.2 hs]
    exact ih s hs

/-- While every page so far was successful and carried a token, the cursor is
still active, holds the same client, has consumed one scripted outcome and
handed one request to the transport per call. -/
theorem runNext_active_pages (sl : Stdlib Net) (cd : JSONCodec (Option Collections)) :
    ∀ (pages : List Response) (i : collectionListIterator Net) (w : Net)
      (tl : List (Except GoError Response)),
      i.collectionClient.databaseClient.hc = Net.Do →
      sl.requestError "GET" i.listURL = none →
      i.done = false →
      w.script = pages.map Except.ok ++ tl →
      (∀ r ∈ pages, successfulPage cd r ∧ r.Header.Get "X-Ms-Continuation" ≠ "") →
      (runNext sl cd pages.length (i, w)).1.done = false ∧
      (runNext sl cd pages.length (i, w)).1.collectionClient = i.collectionClient ∧
      (runNext sl cd pages.length (i, w)).2.script = tl ∧
      (runNext sl cd pages.length (i, w)).2.sent.length = w.sent.length + pages.length := by
  intro pages
  induction pages with
  | nil =>
    intro i w tl _ _ hactive hscript _
    simpa [runNext] using ⟨hactive, hscript⟩
  | cons p ps ih =>
    intro i w tl hhc hbuild hactive hscript hpages
    have hp := hpages p (List.mem_cons_self _ _)
    have hok := Next_ok sl cd w p (ps.map Except.ok ++ tl) hhc hbuild hactive
      (by simpa using hscript) hp.1
    have hworld := Next_world sl cd w hhc hbuild hactive
    have hiter := hok.2
    have hdone : (i.Next sl cd w).iter.done = false := by
      rw [hiter]
      simpa using hp.2
    have hcl : (i.Next sl cd w).iter.collectionClient = i.collectionClient := by
      rw [hiter]
    have hstep := ih (i.Next sl cd w).iter (i.Next sl cd w).world tl
      (by rw [hcl]; exact hhc)
      (by simpa only [collectionListIterator.listURL, hcl] using hbuild)
      hdone
      (by rw [hworld, hscript]; simp)
      (fun r hr => hpages r (List.mem_cons_of_mem _ hr))
    simp only [List.length_cons, runNext]
    refine ⟨hstep.1, hstep.2.1.trans hcl, hstep.2.2.1, ?_⟩
    rw [hstep.2.2.2, hworld]
    simp
    omega

/-- C4. For every sequence of `k = pages.length + 1` successful list responses
in which all but the last carry a non-empty `X-Ms-Continuation` and the last
carries an empty or absent one, answered in turn to an active cursor: the
cursor is still active after each of the first `k - 1` calls of `Next`, it is
exhausted after the `k`-th, having handed exactly `k` requests to the
transport; every later call of `Next` returns a nil result and a nil error,
leaves the world as it was (no dispatch) and leaves the cursor exhausted. -/
theorem Next_exhausts_after_last_page (sl : Stdlib Net) (cd : JSONCodec (Option Collections))
    (i : collectionListIterator Net) (w : Net) (pages : List Response) (last : Response)
    (rest : List (Except GoError Response))
    (hhc : i.collectionClient.databaseClient.hc = Net.Do)
    (hbuild : sl.requestError "GET" i.listURL = none)
    (hactive : i.done = false)
    (hscript : w.script = (pages ++ [last]).map Except.ok ++ rest)
    (hpages : ∀ r ∈ pages ++ [last], successfulPage cd r)
    (hmore : ∀ r ∈ pages, r.Header.Get "X-Ms-Continuation" ≠ "")
    (hlast : last.Header.Get "X-Ms-Continuation" = "") :
    (∀ j, j ≤ pages.length → (runNext sl cd j (i, w)).1.done = false) ∧
    (runNext sl cd (pages.length + 1) (i, w)).1.done = true ∧
    (runNext sl cd (pages.length + 1) (i, w)).2.sent.length
      = w.sent.length + (pages.length + 1) ∧
    (∀ m,
      (runNext sl cd (pages.length + 1 + m) (i, w)).1.done = true ∧
      (runNext sl cd (pages.length + 1 + m) (i, w)).2
        = (runNext sl cd (pages.length + 1) (i, w)).2 ∧
      ((runNext sl cd (pages.length + 1 + m) (i, w)).1.Next sl cd
          (runNext sl cd (pages.length + 1 + m) (i, w)).2).colls = none ∧
      ((runNext sl cd (pages.length + 1 + m) (i, w)).1.Next sl cd
          (runNext sl cd (pages.length + 1 + m) (i, w)).2).err = none ∧
      ((runNext sl cd (pages.length + 1 + m) (i, w)).1.Next sl cd
          (runNext sl cd (pages.length + 1 + m) (i, w)).2).world
        = (runNext sl cd (pages.length + 1 + m) (i, w)).2 ∧
      ((runNext sl cd (pages.length + 1 + m) (i, w)).1.Next sl cd
          (runNext sl cd (pages.length + 1 + m) (i, w)).2).iter.done = true) := by
  have hscript1 : w.script = pages.map Except.ok ++ (Except.ok last :: rest) := by
    rw [hscript]; simp
  have hall : ∀ r ∈ pages, successfulPage cd r ∧ r.Header.Get "X-Ms-Continuation" ≠ "" :=
    fun r hr => ⟨hpages r (List.mem_append_left _ hr), hmore r hr⟩
  -- the state after the pages that carry a token
  obtain ⟨hA1, hA2, hA3, hA4⟩ :=
    runNext_active_pages sl cd pages i w _ hhc hbuild hactive hscript1 hall
  -- the call that receives the last page
  have hhc1 : (runNext sl cd pages.length (i, w)).1.collectionClient.databaseClient.hc = Net.Do := by
    rw [hA2]; exact hhc
  have hbuild1 : sl.requestError "GET" (runNext sl cd pages.length (i, w)).1.listURL = none := by
    simpa only [collectionListIterator.listURL, hA2] using hbuild
  have hok := Next_ok sl cd (runNext sl cd pages.length (i, w)).2 last rest hhc1 hbuild1 hA1 hA3
    (hpages last (by simp))
  have hworld := Next_world sl cd (runNext sl cd pages.length (i, w)).2 hhc1 hbuild1 hA1
  have hk : runNext sl cd (pages.length + 1) (i, w)
      = (((runNext sl cd pages.length (i, w)).1.Next sl cd (runNext sl cd pages.length (i, w)).2).iter,
         ((runNext sl cd pages.length (i, w)).1.Next sl cd
            (runNext sl cd pages.length (i, w)).2).world) := by
    rw [runNext_add]
    rfl
  have hkdone : (runNext sl cd (pages.length + 1) (i, w)).1.done = true := by
    rw [hk]
    show (collectionListIterator.Next _ sl cd _).iter.done = true
    rw [hok.2]
    simp [hlast]
  refine ⟨?_, hkdone, ?_, ?_⟩
  · intro j hj
    have hsplit : w.script
        = (pages.take j).map Except.ok ++ ((pages.drop j).map Except.ok ++ Except.ok last :: rest) := by
      rw [hscript1, ← List.append_assoc, ← List.map_append, List.take_append_drop]
    have := runNext_active_pages sl cd (pages.take j) i w _ hhc hbuild hactive hsplit
      (fun r hr => hall r (List.mem_of_mem_take hr))
    rw [List.length_take, Nat.min_eq_left hj] at this
    exact this.1
  · rw [hk]
    show (collectionListIterator.Next _ sl cd _).world.sent.length = _
    rw [hworld]
    simp [hA4]
    omega
  · intro m
    have hm : runNext sl cd (pages.length + 1 + m) (i, w)
        = runNext sl cd (pages.length + 1) (i, w) := by
      rw [runNext_add]
      exact runNext_done sl cd m _ hkdone
    rw [hm, Next_done _ sl cd _ hkdone]
    exact ⟨hkdone, rfl, rfl, rfl, rfl, hkdone⟩

/-- Witness for C4: one page carrying `tok1` followed by one page without a
token. The cursor is active after the first call, exhausted after the second,
two requests were sent, and a third call returns nothing and sends nothing. -/
theorem Next_exhausts_after_last_page_witness :
    (runNext (sampleStdlib "Mon, 01 Jan 2018 00:00:00 GMT") sampleCollectionsCodec 1
        (sampleCursor, { sent := [], script := [Except.ok tokenPage, Except.ok emptyObjectPage] })
      ).1.done = false ∧
    (runNext (sampleStdlib "Mon, 01 Jan 2018 00:00:00 GMT") sampleCollectionsCodec 2
        (sampleCursor, { sent := [], script := [Except.ok tokenPage, Except.ok emptyObjectPage] })
      ).1.done = true ∧
    (runNext (sampleStdlib "Mon, 01 Jan 2018 00:00:00 GMT") sampleCollectionsCodec 2
        (sampleCursor, { sent := [], script := [Except.ok tokenPage, Except.ok emptyObjectPage] })
      ).2.sent.length = 2 ∧
    (runNext (sampleStdlib "Mon, 01 Jan 2018 00:00:00 GMT") sampleCollectionsCodec 3
        (sampleCursor, { sent := [], script := [Except.ok tokenPage, Except.ok emptyObjectPage] })
      ).2.sent.length = 2 :=
  have h := Next_exhausts_after_last_page (sampleStdlib "Mon, 01 Jan 2018 00:00:00 GMT")
    sampleCollectionsCodec sampleCursor
    { sent := [], script := [Except.ok tokenPage, Except.ok emptyObjectPage] }
    [tokenPage] emptyObjectPage [] rfl (by decide) rfl rfl
    (by
      intro r hr
      simp only [List.cons_append, List.nil_append, List.mem_cons, List.mem_singleton,
        List.not_mem_nil, or_false] at hr
      rcases hr with rfl | rfl <;> exact ⟨by decide, fun _ => by decide⟩)
    (by
      intro r hr
      simp only [List.mem_singleton] at hr
      subst hr
      decide)
    (by decide)
  ⟨h.1 1 (by decide), h.2.1, h.2.2.1,
    (congrArg (fun n : Net => n.sent.length) (h.2.2.2 1).2.1).trans h.2.2.1⟩

/-- Failed dispatches leave an active cursor where it was, each consuming one
scripted outcome. -/
theorem runNext_failed (sl : Stdlib Net) (cd : JSONCodec (Option Collections)) :
    ∀ (fails : List (Except GoError Response)) (i : collectionListIterator Net) (w : Net)
      (tl : List (Except GoError Response)),
      i.collectionClient.databaseClient.hc = Net.Do →
      sl.requestError "GET" i.listURL = none →
      i.done = false →
      w.script = fails ++ tl →
      (∀ o ∈ fails, failedOutcome cd o) →
      (runNext sl cd fails.length (i, w)).1 = i ∧
      (runNext sl cd fails.length (i, w)).2.script = tl := by
  intro fails
  induction fails with
  | nil =>
    intro i w tl _ _ _ hscript _
    simpa [runNext] using hscript
  | cons o os ih =>
    intro i w tl hhc hbuild hactive hscript hfails
    have hiter := Next_failed sl cd w o (os ++ tl) hhc hbuild hactive (by simpa using hscript)
      (hfails o (List.mem_cons_self _ _))
    have hworld := Next_world sl cd w hhc hbuild hactive
    simp only [List.length_cons, runNext, hiter]
    exact ih i (i.Next sl cd w).world tl hhc hbuild hactive (by rw [hworld, hscript]; simp)
      (fun o ho => hfails o (List.mem_cons_of_mem _ ho))

/-- C7. Over the recording transport, for every collection client: the first
request of a fresh cursor carries no `X-Ms-Continuation` header at all; and
after an active cursor received a successful response carrying a non-empty
`X-Ms-Continuation` value, every later request it makes before its next
successful response (the next request, and the requests after any number of
failed dispatches) carries `X-Ms-Continuation` with exactly that value as its
single value. -/
theorem Next_roundtrips_continuation (sl : Stdlib Net) (cd : JSONCodec (Option Collections))
    (cl : collectionClient Net) (w : Net)
    (hhc : cl.databaseClient.hc = Net.Do)
    (hbuild : sl.requestError "GET" cl.List.listURL = none) :
    (∃ req : Request,
      (cl.List.Next sl cd w).world.sent = w.sent ++ [req] ∧
      req.Header.lookup "X-Ms-Continuation" = none) ∧
    (∀ (held : String) (resp : Response) (fails rest : List (Except GoError Response)),
      w.script = Except.ok resp :: (fails ++ rest) →
      successfulPage cd resp →
      resp.Header.Get "X-Ms-Continuation" ≠ "" →
      (∀ o ∈ fails, failedOutcome cd o) →
      ∀ j, j ≤ fails.length →
        ∃ req : Request,
          ((runNext sl cd (1 + j)
              ({ collectionClient := cl, continuation := held, done := false }, w)).1.Next sl cd
            (runNext sl cd (1 + j)
              ({ collectionClient := cl, continuation := held, done := false }, w)).2).world.sent
            = (runNext sl cd (1 + j)
                ({ collectionClient := cl, continuation := held, done := false }, w)).2.sent
              ++ [req] ∧
          req.Header.lookup "X-Ms-Continuation"
            = some [resp.Header.Get "X-Ms-Continuation"]) := by
  constructor
  · refine ⟨cl.List.listRequest sl w, ?_, ?_⟩
    · rw [Next_world sl cd w hhc hbuild rfl]
    · rw [listRequest_continuation]
      simp [collectionClient.List]
  · intro held resp fails rest hscript hpage htok hfails j hj
    have hok := Next_ok (i := { collectionClient := cl, continuation := held, done := false })
      sl cd w resp (fails ++ rest) hhc hbuild rfl hscript hpage
    have hworld := Next_world (i := { collectionClient := cl, continuation := held, done := false })
      sl cd w hhc hbuild rfl
    have hsplit : (collectionListIterator.Next
          { collectionClient := cl, continuation := held, done := false } sl cd w).world.script
        = fails.take j ++ (fails.drop j ++ rest) := by
      rw [hworld, hscript, ← List.append_assoc, List.take_append_drop]
      rfl
    have hrun := runNext_failed sl cd (fails.take j)
      { collectionClient := cl, continuation := resp.Header.Get "X-Ms-Continuation",
        done := resp.Header.Get "X-Ms-Continuation" == "" }
      (collectionListIterator.Next
          { collectionClient := cl, continuation := held, done := false } sl cd w).world
      (fails.drop j ++ rest) hhc hbuild (by simpa using htok) hsplit
      (fun o ho => hfails o (List.mem_of_mem_take ho))
    rw [List.length_take, Nat.min_eq_left hj] at hrun
    have hstate : (runNext sl cd (1 + j)
        ({ collectionClient := cl, continuation := held, done := false }, w)).1
        = { collectionClient := cl, continuation := resp.Header.Get "X-Ms-Continuation",
            done := resp.Header.Get "X-Ms-Continuation" == "" } := by
      rw [runNext_add]
      simp only [runNext]
      rw [hok.2]
      exact hrun.1
    rw [hstate]
    refine ⟨collectionListIterator.listRequest
      { collectionClient := cl, continuation := resp.Header.Get "X-Ms-Continuation",
        done := resp.Header.Get "X-Ms-Continuation" == "" } sl
      (runNext sl cd (1 + j)
        ({ collectionClient := cl, continuation := held, done := false }, w)).2, ?_, ?_⟩
    · have hnext := Next_world
        (i := { collectionClient := cl, continuation := resp.Header.Get "X-Ms-Continuation",
                done := resp.Header.Get "X-Ms-Continuation" == "" })
        sl cd (runNext sl cd (1 + j)
          ({ collectionClient := cl, continuation := held, done := false }, w)).2
        hhc hbuild (by simpa using htok)
      rw [hnext]
    · rw [listRequest_continuation]
      simp [htok]

/-- Witness for C7: the first request of a fresh cursor has no
`X-Ms-Continuation`; after a page carrying `tok1` and one transport failure,
the next request carries `tok1`. -/
theorem Next_roundtrips_continuation_witness :
    (∃ req : Request,
      (sampleCursor.Next (sampleStdlib "Mon, 01 Jan 2018 00:00:00 GMT") sampleCollectionsCodec
          sampleNet).world.sent = [] ++ [req] ∧
      req.Header.lookup "X-Ms-Continuation" = none) ∧
    (∃ req : Request,
      ((runNext (sampleStdlib "Mon, 01 Jan 2018 00:00:00 GMT") sampleCollectionsCodec 2
            (sampleCursor, sampleNet)).1.Next
          (sampleStdlib "Mon, 01 Jan 2018 00:00:00 GMT") sampleCollectionsCodec
          (runNext (sampleStdlib "Mon, 01 Jan 2018 00:00:00 GMT") sampleCollectionsCodec 2
            (sampleCursor, sampleNet)).2).world.sent
        = (runNext (sampleStdlib "Mon, 01 Jan 2018 00:00:00 GMT") sampleCollectionsCodec 2
            (sampleCursor, sampleNet)).2.sent ++ [req] ∧
      req.Header.lookup "X-Ms-Continuation" = some ["tok1"]) :=
  have h := Next_roundtrips_continuation (sampleStdlib "Mon, 01 Jan 2018 00:00:00 GMT")
    sampleCollectionsCodec (NewCollectionClient (netClient "acct" [1, 2, 3]) "mydb") sampleNet
    rfl (by decide)
  ⟨h.1, h.2 "" tokenPage [Except.error (GoError.other "dial tcp: timeout")]
    [Except.ok emptyObjectPage] rfl ⟨by decide, fun _ => by decide⟩ (by decide)
    (by
      intro o ho
      simp only [List.mem_singleton] at ho
      subst ho
      trivial)
    1 (by decide)⟩

/-- C10. For every active cursor, over any transport: if the dispatch made by
`Next` returns an error, `Next` returns that error and leaves the cursor as it
was (the same held continuation token, still active), so that the following
`Next` builds its request from the same header map and behaves exactly as a
call on the cursor before the failure. -/
theorem Next_atomic_on_failure {σ : Type} (i : collectionListIterator σ) (sl : Stdlib σ)
    (cd : JSONCodec (Option Collections)) (w : σ) (e : GoError)
    (hactive : i.done = false)
    (hfail : (i.collectionClient.databaseClient.do_ sl JSONCodec.absent cd "GET"
      (i.collectionClient.path ++ "/colls") "colls" i.collectionClient.path 200
      none (some none) (some i.listHeaders) w).err = some e) :
    (i.Next sl cd w).err = some e ∧
    (i.Next sl cd w).iter.continuation = i.continuation ∧
    (i.Next sl cd w).iter.done = false ∧
    (i.Next sl cd w).iter.listHeaders = i.listHeaders ∧
    (∀ w2 : σ, (i.Next sl cd w).iter.Next sl cd w2 = i.Next sl cd w2) := by
  have hiter : (i.Next sl cd w).iter = i := by
    simp [collectionListIterator.Next, hactive, hfail]
  refine ⟨?_, ?_, ?_, ?_, ?_⟩
  · simp [collectionListIterator.Next, hactive, hfail]
  · rw [hiter]
  · rw [hiter]; exact hactive
  · rw [hiter]
  · intro w2; rw [hiter]

/-- Witness for C10: a cursor holding `tok1` whose dispatch is answered 503
returns an `Error` with status 503 and still holds `tok1`. -/
theorem Next_atomic_on_failure_witness :
    (collectionListIterator.Next
        { collectionClient := NewCollectionClient (netClient "acct" [1, 2, 3]) "mydb"
          continuation := "tok1", done := false }
        (sampleStdlib "Mon, 01 Jan 2018 00:00:00 GMT") sampleCollectionsCodec
        { sent := [], script := [Except.ok unavailablePage] }).err
      = some (GoError.typed { StatusCode := 503, Code := "", Message := "" }) ∧
    (collectionListIterator.Next
        { collectionClient := NewCollectionClient (netClient "acct" [1, 2, 3]) "mydb"
          continuation := "tok1", done := false }
        (sampleStdlib "Mon, 01 Jan 2018 00:00:00 GMT") sampleCollectionsCodec
        { sent := [], script := [Except.ok unavailablePage] }).iter.continuation = "tok1" ∧
    (collectionListIterator.Next
        { collectionClient := NewCollectionClient (netClient "acct" [1, 2, 3]) "mydb"
          continuation := "tok1", done := false }
        (sampleStdlib "Mon, 01 Jan 2018 00:00:00 GMT") sampleCollectionsCodec
        { sent := [], script := [Except.ok unavailablePage] }).iter.done = false :=
  have h := Next_atomic_on_failure
    { collectionClient := NewCollectionClient (netClient "acct" [1, 2, 3]) "mydb"
      continuation := "tok1", done := false }
    (sampleStdlib "Mon, 01 Jan 2018 00:00:00 GMT") sampleCollectionsCodec
    { sent := [], script := [Except.ok unavailablePage] }
    (GoError.typed { StatusCode := 503, Code := "", Message := "" }) rfl (by decide)
  ⟨h.1, h.2.1, h.2.2.1⟩

end Cosmosdb
